import Mathlib

/-!
Verification of the connection/channel/object-registry core of
`playwright/_impl/_connection.py` (playwright-python).

We shallowly embed the data model and the operations of that file:

* structured payload values (`Value`), mirroring the JSON-like data the
  codec walks: `None`, scalars, lists, string-keyed mappings, plus the two
  special leaf types `pathlib.Path` and `Channel` (a channel is identified
  by the guid of its owning `ChannelOwner`);
* the two codec transforms `Connection._replace_channels_with_guids` and
  `Connection._replace_guids_with_channels`;
* the registry state (`Connection._objects` together with every owner's
  child map `ChannelOwner._objects`) and the operations
  `ChannelOwner.__init__` (registration) and `ChannelOwner._dispose`;
* the request-side state of `Connection` (`_last_id`, `_callbacks`,
  transport sends) and `Connection._send_message_to_server`;
* `serialize_call_stack`;
* `Connection._dispatch` over parsed inbound messages;
* the result shaping performed by `Channel.inner_send` after its future
  settles.

Machine-level caveats of the embedding are noted on each definition.
-/

mutual
/-- Structured payload values walked by the codec transforms.  `path s`
embeds a `pathlib.Path` whose string form is `s`; `channel g` embeds the
`Channel` instance registered for guid `g` (each `ChannelOwner` constructs
exactly one `Channel` carrying its own guid).  Lists and string-keyed
mappings are embedded as bespoke mutual types so that structural recursion
and induction stay primitive. -/
inductive Value where
  | null
  | bool (b : Bool)
  | int (n : Int)
  | str (s : String)
  | path (s : String)
  | channel (g : String)
  | list (xs : ValueList)
  | dict (xs : ValueDict)

/-- A list of payload values (embedding of a Python `list`). -/
inductive ValueList where
  | nil
  | cons (v : Value) (rest : ValueList)

/-- A string-keyed mapping of payload values (embedding of a Python `dict`,
in insertion order; Python dicts have no duplicate keys). -/
inductive ValueDict where
  | nil
  | cons (k : String) (v : Value) (rest : ValueDict)
end

mutual
/-- Decidable equality for `Value`. -/
def Value.deq : (a b : Value) → Decidable (a = b)
  | .null, .null => isTrue rfl
  | .bool a, .bool b =>
    match decEq a b with
    | isTrue h => isTrue (by rw [h])
    | isFalse h => isFalse (by intro hh; cases hh; exact h rfl)
  | .int a, .int b =>
    match decEq a b with
    | isTrue h => isTrue (by rw [h])
    | isFalse h => isFalse (by intro hh; cases hh; exact h rfl)
  | .str a, .str b =>
    match decEq a b with
    | isTrue h => isTrue (by rw [h])
    | isFalse h => isFalse (by intro hh; cases hh; exact h rfl)
  | .path a, .path b =>
    match decEq a b with
    | isTrue h => isTrue (by rw [h])
    | isFalse h => isFalse (by intro hh; cases hh; exact h rfl)
  | .channel a, .channel b =>
    match decEq a b with
    | isTrue h => isTrue (by rw [h])
    | isFalse h => isFalse (by intro hh; cases hh; exact h rfl)
  | .list a, .list b =>
    match ValueList.deq a b with
    | isTrue h => isTrue (by rw [h])
    | isFalse h => isFalse (by intro hh; cases hh; exact h rfl)
  | .dict a, .dict b =>
    match ValueDict.deq a b with
    | isTrue h => isTrue (by rw [h])
    | isFalse h => isFalse (by intro hh; cases hh; exact h rfl)
  | .null, .bool _ => isFalse (by intro h; cases h)
  | .null, .int _ => isFalse (by intro h; cases h)
  | .null, .str _ => isFalse (by intro h; cases h)
  | .null, .path _ => isFalse (by intro h; cases h)
  | .null, .channel _ => isFalse (by intro h; cases h)
  | .null, .list _ => isFalse (by intro h; cases h)
  | .null, .dict _ => isFalse (by intro h; cases h)
  | .bool _, .null => isFalse (by intro h; cases h)
  | .bool _, .int _ => isFalse (by intro h; cases h)
  | .bool _, .str _ => isFalse (by intro h; cases h)
  | .bool _, .path _ => isFalse (by intro h; cases h)
  | .bool _, .channel _ => isFalse (by intro h; cases h)
  | .bool _, .list _ => isFalse (by intro h; cases h)
  | .bool _, .dict _ => isFalse (by intro h; cases h)
  | .int _, .null => isFalse (by intro h; cases h)
  | .int _, .bool _ => isFalse (by intro h; cases h)
  | .int _, .str _ => isFalse (by intro h; cases h)
  | .int _, .path _ => isFalse (by intro h; cases h)
  | .int _, .channel _ => isFalse (by intro h; cases h)
  | .int _, .list _ => isFalse (by intro h; cases h)
  | .int _, .dict _ => isFalse (by intro h; cases h)
  | .str _, .null => isFalse (by intro h; cases h)
  | .str _, .bool _ => isFalse (by intro h; cases h)
  | .str _, .int _ => isFalse (by intro h; cases h)
  | .str _, .path _ => isFalse (by intro h; cases h)
  | .str _, .channel _ => isFalse (by intro h; cases h)
  | .str _, .list _ => isFalse (by intro h; cases h)
  | .str _, .dict _ => isFalse (by intro h; cases h)
  | .path _, .null => isFalse (by intro h; cases h)
  | .path _, .bool _ => isFalse (by intro h; cases h)
  | .path _, .int _ => isFalse (by intro h; cases h)
  | .path _, .str _ => isFalse (by intro h; cases h)
  | .path _, .channel _ => isFalse (by intro h; cases h)
  | .path _, .list _ => isFalse (by intro h; cases h)
  | .path _, .dict _ => isFalse (by intro h; cases h)
  | .channel _, .null => isFalse (by intro h; cases h)
  | .channel _, .bool _ => isFalse (by intro h; cases h)
  | .channel _, .int _ => isFalse (by intro h; cases h)
  | .channel _, .str _ => isFalse (by intro h; cases h)
  | .channel _, .path _ => isFalse (by intro h; cases h)
  | .channel _, .list _ => isFalse (by intro h; cases h)
  | .channel _, .dict _ => isFalse (by intro h; cases h)
  | .list _, .null => isFalse (by intro h; cases h)
  | .list _, .bool _ => isFalse (by intro h; cases h)
  | .list _, .int _ => isFalse (by intro h; cases h)
  | .list _, .str _ => isFalse (by intro h; cases h)
  | .list _, .path _ => isFalse (by intro h; cases h)
  | .list _, .channel _ => isFalse (by intro h; cases h)
  | .list _, .dict _ => isFalse (by intro h; cases h)
  | .dict _, .null => isFalse (by intro h; cases h)
  | .dict _, .bool _ => isFalse (by intro h; cases h)
  | .dict _, .int _ => isFalse (by intro h; cases h)
  | .dict _, .str _ => isFalse (by intro h; cases h)
  | .dict _, .path _ => isFalse (by intro h; cases h)
  | .dict _, .channel _ => isFalse (by intro h; cases h)
  | .dict _, .list _ => isFalse (by intro h; cases h)

/-- Decidable equality for `ValueList`. -/
def ValueList.deq : (a b : ValueList) → Decidable (a = b)
  | .nil, .nil => isTrue rfl
  | .nil, .cons _ _ => isFalse (by intro h; cases h)
  | .cons _ _, .nil => isFalse (by intro h; cases h)
  | .cons v r, .cons v' r' =>
    match Value.deq v v', ValueList.deq r r' with
    | isTrue h1, isTrue h2 => isTrue (by rw [h1, h2])
    | isFalse h1, _ => isFalse (by intro hh; cases hh; exact h1 rfl)
    | _, isFalse h2 => isFalse (by intro hh; cases hh; exact h2 rfl)

/-- Decidable equality for `ValueDict`. -/
def ValueDict.deq : (a b : ValueDict) → Decidable (a = b)
  | .nil, .nil => isTrue rfl
  | .nil, .cons _ _ _ => isFalse (by intro h; cases h)
  | .cons _ _ _, .nil => isFalse (by intro h; cases h)
  | .cons k v r, .cons k' v' r' =>
    match decEq k k', Value.deq v v', ValueDict.deq r r' with
    | isTrue h0, isTrue h1, isTrue h2 => isTrue (by rw [h0, h1, h2])
    | isFalse h0, _, _ => isFalse (by intro hh; cases hh; exact h0 rfl)
    | _, isFalse h1, _ => isFalse (by intro hh; cases hh; exact h1 rfl)
    | _, _, isFalse h2 => isFalse (by intro hh; cases hh; exact h2 rfl)
end

instance : DecidableEq Value := Value.deq
instance : DecidableEq ValueList := ValueList.deq
instance : DecidableEq ValueDict := ValueDict.deq

/-- `dict.get(k)` on an embedded mapping: the value at the first matching
key, if any (Python dicts have at most one occurrence of a key). -/
def ValueDict.get (k : String) : ValueDict → Option Value
  | .nil => none
  | .cons k' v rest => if k' = k then some v else ValueDict.get k rest

mutual
/-- Embedding of `Connection._replace_channels_with_guids` (lines 268-284).
The `paramName` argument is threaded exactly as in the source ("index" for
list elements, the key for mapping values); it never influences the
result.  A `Path` leaf becomes its string form, a `Channel` leaf becomes
the one-key mapping `dict(guid=channel._guid)`, lists and mappings recurse
element-wise preserving order, every other leaf passes through. -/
def replaceChannelsWithGuids : Value → String → Value
  | .null, _ => .null
  | .bool b, _ => .bool b
  | .int n, _ => .int n
  | .str s, _ => .str s
  | .path s, _ => .str s
  | .channel g, _ => .dict (.cons "guid" (.str g) .nil)
  | .list xs, _ => .list (replaceChannelsWithGuidsList xs)
  | .dict xs, _ => .dict (replaceChannelsWithGuidsDict xs)

/-- List case of `_replace_channels_with_guids` (the `map` over a list). -/
def replaceChannelsWithGuidsList : ValueList → ValueList
  | .nil => .nil
  | .cons v rest =>
      .cons (replaceChannelsWithGuids v "index") (replaceChannelsWithGuidsList rest)

/-- Mapping case of `_replace_channels_with_guids` (the loop over keys). -/
def replaceChannelsWithGuidsDict : ValueDict → ValueDict
  | .nil => .nil
  | .cons k v rest =>
      .cons k (replaceChannelsWithGuids v k) (replaceChannelsWithGuidsDict rest)
end

mutual
/-- Embedding of `Connection._replace_guids_with_channels` (lines 286-298),
parameterised by `objs`, the key set of the connection's registry
`Connection._objects`.  A mapping whose `"guid"` entry is a string found in
the registry is replaced wholesale by that object's channel; other
mappings and lists recurse element-wise; all other leaves pass through.
The source tests `payload.get("guid") in self._objects`; a non-string
`"guid"` entry is never a registry key, so it is modelled as a non-match
(for an unhashable entry — a list or mapping — CPython would raise
`TypeError`; every theorem below stays inside the domain where the two
agree, constrained by `guidFieldSafe` / `goodInboundDict`). -/
def replaceGuidsWithChannels (objs : List String) : Value → Value
  | .null => .null
  | .bool b => .bool b
  | .int n => .int n
  | .str s => .str s
  | .path s => .path s
  | .channel g => .channel g
  | .list xs => .list (replaceGuidsWithChannelsList objs xs)
  | .dict xs =>
      match xs.get "guid" with
      | some (.str g) =>
          if objs.contains g then .channel g
          else .dict (replaceGuidsWithChannelsDict objs xs)
      | _ => .dict (replaceGuidsWithChannelsDict objs xs)

/-- List case of `_replace_guids_with_channels`. -/
def replaceGuidsWithChannelsList (objs : List String) : ValueList → ValueList
  | .nil => .nil
  | .cons v rest =>
      .cons (replaceGuidsWithChannels objs v) (replaceGuidsWithChannelsList objs rest)

/-- Mapping case of `_replace_guids_with_channels` (the loop over keys,
reached only when the mapping is not itself a registered handle). -/
def replaceGuidsWithChannelsDict (objs : List String) : ValueDict → ValueDict
  | .nil => .nil
  | .cons k v rest =>
      .cons k (replaceGuidsWithChannels objs v) (replaceGuidsWithChannelsDict objs rest)
end

mutual
/-- No `pathlib.Path` leaf occurs anywhere in the value. -/
def noPath : Value → Bool
  | .null => true
  | .bool _ => true
  | .int _ => true
  | .str _ => true
  | .path _ => false
  | .channel _ => true
  | .list xs => noPathList xs
  | .dict xs => noPathDict xs

/-- `noPath` over an embedded list. -/
def noPathList : ValueList → Bool
  | .nil => true
  | .cons v rest => noPath v && noPathList rest

/-- `noPath` over an embedded mapping. -/
def noPathDict : ValueDict → Bool
  | .nil => true
  | .cons _ v rest => noPath v && noPathDict rest
end

mutual
/-- Every `Channel` leaf is the channel of a live registry entry: its guid
is a key of `Connection._objects`.  (In the source each registered
`ChannelOwner` owns the unique `Channel` carrying its guid, so this is the
faithful reading of "the handle leaves resolve to live registry
entries".) -/
def channelsRegistered (objs : List String) : Value → Bool
  | .null => true
  | .bool _ => true
  | .int _ => true
  | .str _ => true
  | .path _ => true
  | .channel g => objs.contains g
  | .list xs => channelsRegisteredList objs xs
  | .dict xs => channelsRegisteredDict objs xs

/-- `channelsRegistered` over an embedded list. -/
def channelsRegisteredList (objs : List String) : ValueList → Bool
  | .nil => true
  | .cons v rest => channelsRegistered objs v && channelsRegisteredList objs rest

/-- `channelsRegistered` over an embedded mapping. -/
def channelsRegisteredDict (objs : List String) : ValueDict → Bool
  | .nil => true
  | .cons _ v rest => channelsRegistered objs v && channelsRegisteredDict objs rest
end

/-- A `"guid"` entry of an outbound mapping that does not trip the inbound
handle detection: absent, or a scalar that is not a registered identifier.
(A list/mapping entry would make CPython raise `TypeError` on the
membership test, a registered string would be replaced by a channel, and a
`Channel` entry would serialize to a nested `{guid: ...}` mapping.) -/
def guidFieldSafe (objs : List String) : Option Value → Bool
  | none => true
  | some .null => true
  | some (.bool _) => true
  | some (.int _) => true
  | some (.str s) => !objs.contains s
  | some _ => false

mutual
/-- Every mapping inside the value has a `guidFieldSafe` `"guid"` entry, so
that the outbound image of the value triggers no inbound handle
detection. -/
def guidFieldsSafe (objs : List String) : Value → Bool
  | .null => true
  | .bool _ => true
  | .int _ => true
  | .str _ => true
  | .path _ => true
  | .channel _ => true
  | .list xs => guidFieldsSafeList objs xs
  | .dict xs => guidFieldSafe objs (xs.get "guid") && guidFieldsSafeDict objs xs

/-- `guidFieldsSafe` over an embedded list. -/
def guidFieldsSafeList (objs : List String) : ValueList → Bool
  | .nil => true
  | .cons v rest => guidFieldsSafe objs v && guidFieldsSafeList objs rest

/-- `guidFieldsSafe` over an embedded mapping. -/
def guidFieldsSafeDict (objs : List String) : ValueDict → Bool
  | .nil => true
  | .cons _ v rest => guidFieldsSafe objs v && guidFieldsSafeDict objs rest
end

mutual
/-- The value is plain wire data (parsed JSON): no `Path` and no `Channel`
leaf occurs in it. -/
def isWire : Value → Bool
  | .null => true
  | .bool _ => true
  | .int _ => true
  | .str _ => true
  | .path _ => false
  | .channel _ => false
  | .list xs => isWireList xs
  | .dict xs => isWireDict xs

/-- `isWire` over an embedded list. -/
def isWireList : ValueList → Bool
  | .nil => true
  | .cons v rest => isWire v && isWireList rest

/-- `isWire` over an embedded mapping. -/
def isWireDict : ValueDict → Bool
  | .nil => true
  | .cons _ v rest => isWire v && isWireDict rest
end

mutual
/-- Every mapping inside the value that carries a `"guid"` entry is exactly
the one-key handle encoding `{guid: g}` of a registered identifier `g`;
mappings without a `"guid"` entry recurse. -/
def handleDictsExact (objs : List String) : Value → Bool
  | .null => true
  | .bool _ => true
  | .int _ => true
  | .str _ => true
  | .path _ => true
  | .channel _ => true
  | .list xs => handleDictsExactList objs xs
  | .dict xs =>
      match xs.get "guid" with
      | none => handleDictsExactDict objs xs
      | some (.str g) => objs.contains g && decide (xs = .cons "guid" (.str g) .nil)
      | some _ => false

/-- `handleDictsExact` over an embedded list. -/
def handleDictsExactList (objs : List String) : ValueList → Bool
  | .nil => true
  | .cons v rest => handleDictsExact objs v && handleDictsExactList objs rest

/-- `handleDictsExact` over an embedded mapping. -/
def handleDictsExactDict (objs : List String) : ValueDict → Bool
  | .nil => true
  | .cons _ v rest => handleDictsExact objs v && handleDictsExactDict objs rest
end

/-- The outbound transform commutes with `get "guid"` on a mapping: looking
up `"guid"` after the per-key rewrite finds the rewritten entry. -/
theorem get_guid_replaceChannelsWithGuidsDict : (xs : ValueDict) →
    (replaceChannelsWithGuidsDict xs).get "guid"
      = (xs.get "guid").map (fun v => replaceChannelsWithGuids v "guid")
  | .nil => rfl
  | .cons k v rest => by
      by_cases h : k = "guid"
      · subst h
        simp [replaceChannelsWithGuidsDict, ValueDict.get]
      · simp [replaceChannelsWithGuidsDict, ValueDict.get, h,
          get_guid_replaceChannelsWithGuidsDict rest]

mutual
/-- Outbound-then-inbound identity on a single value, under the conditions
that make it hold: no `Path` leaf, every channel leaf registered, and no
mapping carrying a `"guid"` entry that the inbound pass would mistake for
a handle. -/
theorem outIn (objs : List String) : (v : Value) → noPath v = true →
    channelsRegistered objs v = true → guidFieldsSafe objs v = true →
    (pn : String) →
    replaceGuidsWithChannels objs (replaceChannelsWithGuids v pn) = v
  | .null, _, _, _, _ => rfl
  | .bool _, _, _, _, _ => rfl
  | .int _, _, _, _, _ => rfl
  | .str _, _, _, _, _ => rfl
  | .path _, h1, _, _, _ => by simp [noPath] at h1
  | .channel g, _, h2, _, _ => by
      simp only [channelsRegistered] at h2
      have h2' : g ∈ objs := by simpa using h2
      simp [replaceChannelsWithGuids, replaceGuidsWithChannels, ValueDict.get, h2']
  | .list xs, h1, h2, h3, _ => by
      simp only [noPath] at h1
      simp only [channelsRegistered] at h2
      simp only [guidFieldsSafe] at h3
      simp [replaceChannelsWithGuids, replaceGuidsWithChannels,
        outInList objs xs h1 h2 h3]
  | .dict xs, h1, h2, h3, _ => by
      simp only [noPath] at h1
      simp only [channelsRegistered] at h2
      simp only [guidFieldsSafe, Bool.and_eq_true] at h3
      obtain ⟨hsafe, h3d⟩ := h3
      simp only [replaceChannelsWithGuids, replaceGuidsWithChannels,
        get_guid_replaceChannelsWithGuidsDict]
      cases hg : xs.get "guid" with
      | none =>
          simp [outInDict objs xs h1 h2 h3d]
      | some v' =>
          rw [hg] at hsafe
          cases v' with
          | null => simp [replaceChannelsWithGuids, outInDict objs xs h1 h2 h3d]
          | bool b => simp [replaceChannelsWithGuids, outInDict objs xs h1 h2 h3d]
          | int n => simp [replaceChannelsWithGuids, outInDict objs xs h1 h2 h3d]
          | str s =>
              simp only [guidFieldSafe, Bool.not_eq_true'] at hsafe
              have hs' : s ∉ objs := by simpa using hsafe
              simp [replaceChannelsWithGuids, hs',
                outInDict objs xs h1 h2 h3d]
          | path s => simp [guidFieldSafe] at hsafe
          | channel g => simp [guidFieldSafe] at hsafe
          | list ys => simp [guidFieldSafe] at hsafe
          | dict ys => simp [guidFieldSafe] at hsafe

/-- `outIn` over an embedded list. -/
theorem outInList (objs : List String) : (xs : ValueList) →
    noPathList xs = true → channelsRegisteredList objs xs = true →
    guidFieldsSafeList objs xs = true →
    replaceGuidsWithChannelsList objs (replaceChannelsWithGuidsList xs) = xs
  | .nil, _, _, _ => rfl
  | .cons v rest, h1, h2, h3 => by
      simp only [noPathList, Bool.and_eq_true] at h1
      simp only [channelsRegisteredList, Bool.and_eq_true] at h2
      simp only [guidFieldsSafeList, Bool.and_eq_true] at h3
      simp [replaceChannelsWithGuidsList, replaceGuidsWithChannelsList,
        outIn objs v h1.1 h2.1 h3.1 "index", outInList objs rest h1.2 h2.2 h3.2]

/-- `outIn` over an embedded mapping (the per-key loop). -/
theorem outInDict (objs : List String) : (xs : ValueDict) →
    noPathDict xs = true → channelsRegisteredDict objs xs = true →
    guidFieldsSafeDict objs xs = true →
    replaceGuidsWithChannelsDict objs (replaceChannelsWithGuidsDict xs) = xs
  | .nil, _, _, _ => rfl
  | .cons k v rest, h1, h2, h3 => by
      simp only [noPathDict, Bool.and_eq_true] at h1
      simp only [channelsRegisteredDict, Bool.and_eq_true] at h2
      simp only [guidFieldsSafeDict, Bool.and_eq_true] at h3
      simp [replaceChannelsWithGuidsDict, replaceGuidsWithChannelsDict,
        outIn objs v h1.1 h2.1 h3.1 k, outInDict objs rest h1.2 h2.2 h3.2]
end

mutual
/-- Inbound-then-outbound identity on a single wire value, under the
conditions that make it hold: the value is plain wire data and every
mapping carrying a `"guid"` entry is exactly the one-key handle encoding
of a registered identifier. -/
theorem inOut (objs : List String) : (w : Value) → isWire w = true →
    handleDictsExact objs w = true → (pn : String) →
    replaceChannelsWithGuids (replaceGuidsWithChannels objs w) pn = w
  | .null, _, _, _ => rfl
  | .bool _, _, _, _ => rfl
  | .int _, _, _, _ => rfl
  | .str _, _, _, _ => rfl
  | .path _, h1, _, _ => by simp [isWire] at h1
  | .channel _, h1, _, _ => by simp [isWire] at h1
  | .list xs, h1, h2, _ => by
      simp only [isWire] at h1
      simp only [handleDictsExact] at h2
      simp [replaceGuidsWithChannels, replaceChannelsWithGuids,
        inOutList objs xs h1 h2]
  | .dict xs, h1, h2, _ => by
      simp only [isWire] at h1
      simp only [handleDictsExact] at h2
      cases hg : xs.get "guid" with
      | none =>
          rw [hg] at h2
          simp [replaceGuidsWithChannels, hg, replaceChannelsWithGuids,
            inOutDict objs xs h1 h2]
      | some v' =>
          rw [hg] at h2
          cases v' with
          | str g =>
              simp only [Bool.and_eq_true, decide_eq_true_eq] at h2
              obtain ⟨hc, hxs⟩ := h2
              have hc' : g ∈ objs := by simpa using hc
              subst hxs
              simp [replaceGuidsWithChannels, ValueDict.get, hc',
                replaceChannelsWithGuids]
          | null => cases h2
          | bool b => cases h2
          | int n => cases h2
          | path s => cases h2
          | channel g => cases h2
          | list ys => cases h2
          | dict ys => cases h2

/-- `inOut` over an embedded list. -/
theorem inOutList (objs : List String) : (xs : ValueList) →
    isWireList xs = true → handleDictsExactList objs xs = true →
    replaceChannelsWithGuidsList (replaceGuidsWithChannelsList objs xs) = xs
  | .nil, _, _ => rfl
  | .cons v rest, h1, h2 => by
      simp only [isWireList, Bool.and_eq_true] at h1
      simp only [handleDictsExactList, Bool.and_eq_true] at h2
      simp [replaceGuidsWithChannelsList, replaceChannelsWithGuidsList,
        inOut objs v h1.1 h2.1 "index", inOutList objs rest h1.2 h2.2]

/-- `inOut` over an embedded mapping (the per-key loop, reached only when
the mapping is not itself a handle encoding). -/
theorem inOutDict (objs : List String) : (xs : ValueDict) →
    isWireDict xs = true → handleDictsExactDict objs xs = true →
    replaceChannelsWithGuidsDict (replaceGuidsWithChannelsDict objs xs) = xs
  | .nil, _, _ => rfl
  | .cons k v rest, h1, h2 => by
      simp only [isWireDict, Bool.and_eq_true] at h1
      simp only [handleDictsExactDict, Bool.and_eq_true] at h2
      simp [replaceGuidsWithChannelsDict, replaceChannelsWithGuidsDict,
        inOut objs v h1.1 h2.1 k, inOutDict objs rest h1.2 h2.2]
end

/-- C1 (amended).  Codec round-trip identity.  Outbound-then-inbound is the
identity on every structured value that contains no `Path` leaf, whose
`Channel` leaves are all channels of live registry entries, and none of
whose mappings carries a `"guid"` entry that the inbound pass would read
as a handle (a registered identifier string, or a non-scalar).
Inbound-then-outbound is the identity on every wire value all of whose
`{guid: ...}` mappings are exactly the one-key handle encoding of a
registered identifier. -/
theorem C1_codec_round_trip (objs : List String) (v w : Value) (pnv pnw : String)
    (hv1 : noPath v = true) (hv2 : channelsRegistered objs v = true)
    (hv3 : guidFieldsSafe objs v = true)
    (hw1 : isWire w = true) (hw2 : handleDictsExact objs w = true) :
    replaceGuidsWithChannels objs (replaceChannelsWithGuids v pnv) = v ∧
    replaceChannelsWithGuids (replaceGuidsWithChannels objs w) pnw = w :=
  ⟨outIn objs v hv1 hv2 hv3 pnv, inOut objs w hw1 hw2 pnw⟩

/-- C1 witness: the round trip at a concrete registry `["g1"]`, a concrete
outbound value holding a registered channel leaf, and a concrete inbound
value holding a handle encoding. -/
theorem C1_codec_round_trip_witness :
    replaceGuidsWithChannels ["g1"]
        (replaceChannelsWithGuids
          (.list (.cons (.channel "g1") (.cons (.int 5) .nil))) "params")
      = .list (.cons (.channel "g1") (.cons (.int 5) .nil)) ∧
    replaceChannelsWithGuids
        (replaceGuidsWithChannels ["g1"]
          (.dict (.cons "a" (.dict (.cons "guid" (.str "g1") .nil)) .nil))) "params"
      = .dict (.cons "a" (.dict (.cons "guid" (.str "g1") .nil)) .nil) :=
  C1_codec_round_trip ["g1"]
    (.list (.cons (.channel "g1") (.cons (.int 5) .nil)))
    (.dict (.cons "a" (.dict (.cons "guid" (.str "g1") .nil)) .nil))
    "params" "params" (by decide) (by decide) (by decide) (by decide) (by decide)

/-- C1 counterexample: with `"g1"` registered, the plain mapping
`{"guid": "g1"}` contains no `Path` leaf, yet
`_replace_guids_with_channels(_replace_channels_with_guids(v))` is the
registered channel, not `v` — so the claimed identity on all
path-free structured values fails. -/
theorem C1_claim_counterexample :
    noPath (.dict (.cons "guid" (.str "g1") .nil)) = true ∧
    replaceGuidsWithChannels ["g1"]
        (replaceChannelsWithGuids (.dict (.cons "guid" (.str "g1") .nil)) "params")
      ≠ .dict (.cons "guid" (.str "g1") .nil) := by
  exact ⟨rfl, by decide⟩

/-- The per-object data of one registered proxy that the registry
operations consult: its type tag and the guid of its parent
(`ChannelOwner._parent`); `parentGuid = none` embeds a parent that is the
`Connection` itself (only the synthetic root). -/
structure Proxy where
  type : String
  parentGuid : Option String
deriving DecidableEq

/-- First-match association-list lookup (Python `dict` access keyed by
guid; Python dicts never hold duplicate keys). -/
def alookup {α : Type} : List (String × α) → String → Option α
  | [], _ => none
  | (k, v) :: rest, g => if k = g then some v else alookup rest g

/-- The registry state: `objects` embeds `Connection._objects` (guid →
proxy) and `children` embeds every owner's own child map
`ChannelOwner._objects` (owner guid → guids of its children, in insertion
order). -/
structure Registry where
  objects : List (String × Proxy)
  children : List (String × List String)
deriving DecidableEq

/-- The keys of `Connection._objects`. -/
def Registry.objKeys (st : Registry) : List String := st.objects.map (·.1)

/-- The child list of owner `g` (empty when `g` has no entry). -/
def childrenOf (st : Registry) (g : String) : List String :=
  (alookup st.children g).getD []

/-- The parent pointer of the proxy registered under `g`
(`self._parent`, read through the registry). -/
def parentPtr (st : Registry) (g : String) : Option String :=
  (alookup st.objects g).bind (·.parentGuid)

/-- `del self._parent._objects[self._guid]`: remove guid `c` from the
child list of owner `p`.  The source's `del` presupposes the key is
present; on states where it is absent this model removes nothing. -/
def removeChild (p c : String) (st : Registry) : Registry :=
  { st with children :=
      st.children.map (fun e => if e.1 = p then (e.1, e.2.filter (· ≠ c)) else e) }

/-- `del self._connection._objects[self._guid]`: drop the registry entry
of guid `g` (same `del` caveat as `removeChild`). -/
def removeObj (g : String) (st : Registry) : Registry :=
  { st with objects := st.objects.filter (fun e => e.1 ≠ g) }

/-- `self._objects.clear()`: empty the child map of owner `g`. -/
def clearChildren (g : String) (st : Registry) : Registry :=
  { st with children :=
      st.children.map (fun e => if e.1 = g then (e.1, ([] : List String)) else e) }

/-- Embedding of `ChannelOwner._dispose` (lines 105-114), fuelled to make
the recursion total: remove the proxy from its parent's child map and the
connection-wide table, then recursively dispose every child — iterating
over the snapshot `list(self._objects.values())` taken before the
recursion begins — and finally clear the now-empty child map.  The
object's parent is read through the registry entry, which agrees with the
Python object's own `_parent` field on every reachable state.
`parentStep` is the first statement pair of `_dispose` (`if self._parent:
del self._parent._objects[self._guid]`). -/
def parentStep (g : String) (st : Registry) : Registry :=
  match parentPtr st g with
  | some p => removeChild p g st
  | none => st

def dispose : Nat → String → Registry → Registry
  | 0, _, st => st
  | fuel + 1, g, st =>
      let st2 := removeObj g (parentStep g st)
      clearChildren g ((childrenOf st2 g).foldl (fun s c => dispose fuel c s) st2)

/-- A forest of proxy guids in first-child/next-sibling form: `cons g kids
rest` is the tree rooted at `g` with child subtrees `kids`, followed by
the sibling trees `rest`. -/
inductive Forest where
  | nil
  | cons (g : String) (kids : Forest) (rest : Forest)
deriving DecidableEq

/-- The root guids of the trees of the forest. -/
def Forest.roots : Forest → List String
  | .nil => []
  | .cons g _ rest => g :: rest.roots

/-- Every guid in the forest, root first. -/
def Forest.nodes : Forest → List String
  | .nil => []
  | .cons g kids rest => g :: (kids.nodes ++ rest.nodes)

/-- Number of guids in the forest. -/
def Forest.size : Forest → Nat
  | .nil => 0
  | .cons _ kids rest => 1 + kids.size + rest.size

/-- The forest faithfully describes a slice of the registry: every root of
the forest is registered with parent pointer `po`, its child map lists
exactly its subtrees' roots in order, and so on recursively down the
trees. -/
def repKids (st : Registry) (po : Option String) : Forest → Bool
  | .nil => true
  | .cons c kids rest =>
      (alookup st.objects c).isSome &&
      decide (parentPtr st c = po) &&
      decide (childrenOf st c = kids.roots) &&
      repKids st (some c) kids &&
      repKids st po rest


/-- Unfolding lemma: lookup in an empty association list. -/
theorem alookup_nil {α : Type} (q : String) : alookup ([] : List (String × α)) q = none := rfl

/-- Unfolding lemma: lookup at a cons cell. -/
theorem alookup_cons {α : Type} (k : String) (v : α) (rest : List (String × α))
    (q : String) :
    alookup ((k, v) :: rest) q = if k = q then some v else alookup rest q := rfl

/-- Lookup after rewriting the value stored at key `p`, pointwise. -/
theorem alookup_mapEntry {α : Type} (f : α → α) (p : String)
    (l : List (String × α)) (q : String) :
    alookup (l.map fun e => if e.1 = p then (e.1, f e.2) else e) q
      = if q = p then (alookup l q).map f else alookup l q := by
  induction l with
  | nil => by_cases h : q = p <;> simp [alookup_nil, h]
  | cons e rest ih =>
      obtain ⟨k, v⟩ := e
      simp only [List.map_cons]
      by_cases h1 : k = p
      · by_cases h2 : k = q
        · simp [alookup_cons, h1, h2, ← h2.symm.trans h1]
        · have h2' : ¬ q = p := fun hh => h2 (h1.trans hh.symm)
          have h3 : ¬ p = q := fun hh => h2 (h1.trans hh)
          simp [alookup_cons, h1, h2, h2', h3, ih]
      · by_cases h2 : k = q
        · have h2' : ¬ q = p := fun hh => h1 (h2.trans hh)
          simp [alookup_cons, h1, h2, h2']
        · simp [alookup_cons, h1, h2, ih]

/-- Lookup after filtering out key `g`, pointwise. -/
theorem alookup_filterKey {α : Type} (g : String)
    (l : List (String × α)) (q : String) :
    alookup (l.filter fun e => e.1 ≠ g) q
      = if q = g then none else alookup l q := by
  induction l with
  | nil => by_cases h : q = g <;> simp [alookup_nil, h]
  | cons e rest ih =>
      obtain ⟨k, v⟩ := e
      by_cases h1 : k = g
      · rw [List.filter_cons_of_neg (by simp [h1])]
        rw [ih]
        by_cases h2 : q = g
        · simp [h2]
        · have h2' : ¬ k = q := fun hh => h2 (hh ▸ h1)
          simp [alookup_cons, h2, h2']
      · rw [List.filter_cons_of_pos (by simp [h1])]
        by_cases h2 : k = q
        · have h2' : ¬ q = g := fun hh => h1 (h2.trans hh)
          simp [alookup_cons, h2, h2']
        · rw [alookup_cons, if_neg h2, ih]
          by_cases h3 : q = g
          · rw [if_pos h3, if_pos h3]
          · rw [if_neg h3, if_neg h3, alookup_cons, if_neg h2]

/-- `removeChild` filters `c` out of `p`'s child list and touches no other
child list. -/
theorem childrenOf_removeChild (p c : String) (st : Registry) (q : String) :
    childrenOf (removeChild p c st) q
      = if q = p then (childrenOf st q).filter (· ≠ c) else childrenOf st q := by
  show (alookup (st.children.map
      fun e => if e.1 = p then (e.1, e.2.filter (· ≠ c)) else e) q).getD [] = _
  rw [alookup_mapEntry (fun l => l.filter (· ≠ c)) p st.children q]
  unfold childrenOf
  by_cases h : q = p
  · rw [if_pos h, if_pos h]
    cases alookup st.children q <;> simp
  · rw [if_neg h, if_neg h]

/-- `removeObj` leaves every child list unchanged. -/
theorem childrenOf_removeObj (g : String) (st : Registry) (q : String) :
    childrenOf (removeObj g st) q = childrenOf st q := rfl

/-- `clearChildren` empties `g`'s child list and touches no other. -/
theorem childrenOf_clearChildren (g : String) (st : Registry) (q : String) :
    childrenOf (clearChildren g st) q
      = if q = g then [] else childrenOf st q := by
  show (alookup (st.children.map
      fun e => if e.1 = g then (e.1, ([] : List String)) else e) q).getD [] = _
  rw [alookup_mapEntry (fun _ => ([] : List String)) g st.children q]
  by_cases h : q = g
  · rw [if_pos h, if_pos h]
    cases alookup st.children q <;> simp
  · rw [if_neg h, if_neg h]
    rfl

/-- `removeObj` drops exactly the entry of `g` from the object table. -/
theorem alookup_objects_removeObj (g : String) (st : Registry) (q : String) :
    alookup (removeObj g st).objects q
      = if q = g then none else alookup st.objects q :=
  alookup_filterKey g st.objects q

/-- `removeChild` leaves the object table unchanged. -/
theorem objects_removeChild (p c : String) (st : Registry) :
    (removeChild p c st).objects = st.objects := rfl

/-- `clearChildren` leaves the object table unchanged. -/
theorem objects_clearChildren (g : String) (st : Registry) :
    (clearChildren g st).objects = st.objects := rfl

/-- `parentStep` leaves the object table unchanged. -/
theorem objects_parentStep (g : String) (st : Registry) :
    (parentStep g st).objects = st.objects := by
  unfold parentStep
  cases parentPtr st g <;> rfl

/-- `parentStep` leaves every child list other than the parent's
unchanged. -/
theorem childrenOf_parentStep (g : String) (st : Registry) (x : String)
    (hx : ∀ p', parentPtr st g = some p' → x ≠ p') :
    childrenOf (parentStep g st) x = childrenOf st x := by
  unfold parentStep
  cases hp : parentPtr st g with
  | none => rfl
  | some p => rw [childrenOf_removeChild, if_neg (hx p hp)]

/-- `parentStep` filters the disposed guid out of its parent's child
list. -/
theorem childrenOf_parentStep_parent (g : String) (st : Registry) (p : String)
    (hp : parentPtr st g = some p) :
    childrenOf (parentStep g st) p = (childrenOf st p).filter (· ≠ g) := by
  unfold parentStep
  rw [hp, childrenOf_removeChild, if_pos rfl]

/-- `parentStep` never adds an element to any child list. -/
theorem mem_childrenOf_parentStep (g : String) (st : Registry) (q x : String) :
    x ∈ childrenOf (parentStep g st) q → x ∈ childrenOf st q := by
  unfold parentStep
  cases hp : parentPtr st g with
  | none => exact id
  | some p =>
      intro h
      rw [childrenOf_removeChild] at h
      by_cases hq : q = p
      · rw [if_pos hq] at h
        exact List.mem_of_mem_filter h
      · rw [if_neg hq] at h
        exact h

/-- Folding `dispose` over a list only shrinks child lists, given that a
single `dispose` at this fuel does. -/
theorem mem_childrenOf_foldl_dispose (fuel : Nat)
    (hmono : ∀ g st q x, x ∈ childrenOf (dispose fuel g st) q → x ∈ childrenOf st q) :
    ∀ (l : List String) (s : Registry) (q x : String),
      x ∈ childrenOf (l.foldl (fun a c => dispose fuel c a) s) q →
      x ∈ childrenOf s q := by
  intro l
  induction l with
  | nil => intro s q x h; exact h
  | cons c cs ihl =>
      intro s q x h
      exact hmono c s q x (ihl (dispose fuel c s) q x h)

/-- `dispose` never adds an element to any child list. -/
theorem mem_childrenOf_dispose : ∀ (fuel : Nat) (g : String) (st : Registry)
    (q x : String), x ∈ childrenOf (dispose fuel g st) q → x ∈ childrenOf st q := by
  intro fuel
  induction fuel with
  | zero => intro g st q x h; exact h
  | succ fuel ih =>
      intro g st q x h
      simp only [dispose] at h
      rw [childrenOf_clearChildren] at h
      by_cases hq : q = g
      · rw [if_pos hq] at h
        cases h
      · rw [if_neg hq] at h
        have h2 := mem_childrenOf_foldl_dispose fuel ih _ _ q x h
        rw [childrenOf_removeObj] at h2
        exact mem_childrenOf_parentStep g st q x h2

/-- Folding `dispose` preserves absence from the object table, given that
a single `dispose` at this fuel does. -/
theorem alookup_objects_foldl_dispose (fuel : Nat)
    (hmono : ∀ g st q, alookup st.objects q = none →
      alookup (dispose fuel g st).objects q = none) :
    ∀ (l : List String) (s : Registry) (q : String),
      alookup s.objects q = none →
      alookup (l.foldl (fun a c => dispose fuel c a) s).objects q = none := by
  intro l
  induction l with
  | nil => intro s q h; exact h
  | cons c cs ihl =>
      intro s q h
      exact ihl (dispose fuel c s) q (hmono c s q h)

/-- Once a guid is gone from the object table, `dispose` never brings it
back. -/
theorem alookup_objects_dispose_none : ∀ (fuel : Nat) (g : String)
    (st : Registry) (q : String), alookup st.objects q = none →
    alookup (dispose fuel g st).objects q = none := by
  intro fuel
  induction fuel with
  | zero => intro g st q h; exact h
  | succ fuel ih =>
      intro g st q h
      simp only [dispose]
      rw [objects_clearChildren]
      apply alookup_objects_foldl_dispose fuel ih
      rw [alookup_objects_removeObj]
      by_cases hq : q = g
      · rw [if_pos hq]
      · rw [if_neg hq]
        rw [objects_parentStep]
        exact h

/-- `repKids` only reads the object entries and child lists of the
forest's nodes: two states agreeing there represent the same forests. -/
theorem repKids_ext : ∀ (f : Forest) (po : Option String) (s s' : Registry),
    (∀ x, x ∈ f.nodes → alookup s'.objects x = alookup s.objects x ∧
      childrenOf s' x = childrenOf s x) →
    repKids s' po f = repKids s po f := by
  intro f
  induction f with
  | nil => intro po s s' _; rfl
  | cons c kids rest ihk ihr =>
      intro po s s' h
      have hc := h c (List.mem_cons_self c _)
      have hpar : parentPtr s' c = parentPtr s c := by
        unfold parentPtr
        rw [hc.1]
      simp only [repKids]
      rw [hc.1, hpar, hc.2]
      rw [ihk (some c) s s'
        (fun x hx => h x (List.mem_cons_of_mem _ (List.mem_append_left _ hx)))]
      rw [ihr po s s'
        (fun x hx => h x (List.mem_cons_of_mem _ (List.mem_append_right _ hx)))]

/-- Filtering a list by non-membership in itself gives the empty list. -/
theorem filter_not_mem_self (l : List String) :
    (l.filter fun y => y ∉ l) = [] := by
  rw [List.filter_eq_nil_iff]
  intro a ha
  simp [ha]

/-- Two successive removals fuse into one filter against the combined
exclusion list. -/
theorem filter_ne_filter_not_mem (c : String) (rs l : List String) :
    ((l.filter (· ≠ c)).filter fun y => y ∉ rs)
      = l.filter fun y => y ∉ c :: rs := by
  induction l with
  | nil => rfl
  | cons a l ih =>
      by_cases hac : a = c
      · subst hac
        rw [List.filter_cons_of_neg (by simp)]
        rw [List.filter_cons_of_neg (by simp)]
        exact ih
      · rw [List.filter_cons_of_pos (by simp [hac])]
        by_cases har : a ∈ rs
        · rw [List.filter_cons_of_neg (by simp [har])]
          rw [List.filter_cons_of_neg (by simp [har])]
          exact ih
        · rw [List.filter_cons_of_pos (by simp [har])]
          rw [List.filter_cons_of_pos (by simp [hac, har])]
          rw [ih]

/-- Disposing every tree of a represented forest in order removes every
node of the forest from the object table, empties every node's child
list, touches no other object entry, touches no other child list except
the represented parent's, and filters exactly the forest's roots out of
that parent's child list. -/
theorem dispose_forest : ∀ (f : Forest) (po : Option String) (fuel : Nat)
    (s s' : Registry),
    repKids s po f = true →
    f.nodes.Nodup →
    (∀ p', po = some p' → p' ∉ f.nodes) →
    f.size ≤ fuel →
    s' = f.roots.foldl (fun a c => dispose fuel c a) s →
    (∀ d ∈ f.nodes, alookup s'.objects d = none) ∧
    (∀ d ∈ f.nodes, childrenOf s' d = []) ∧
    (∀ x, x ∉ f.nodes → alookup s'.objects x = alookup s.objects x) ∧
    (∀ x, x ∉ f.nodes → (∀ p', po = some p' → x ≠ p') →
      childrenOf s' x = childrenOf s x) ∧
    (∀ p', po = some p' →
      childrenOf s' p' = (childrenOf s p').filter (fun y => y ∉ f.roots)) := by
  intro f
  induction f with
  | nil =>
      intro po fuel s s' _ _ _ _ hs'
      subst hs'
      refine ⟨?_, ?_, ?_, ?_, ?_⟩
      · intro d hd
        cases hd
      · intro d hd
        cases hd
      · intro x _
        rfl
      · intro x _ _
        rfl
      · intro p' _
        symm
        rw [List.filter_eq_self]
        intro a _
        simp [Forest.roots]
  | cons c kids rest ihk ihr =>
      intro po fuel s s' hrep hnd hpo hfuel hs'
      simp only [repKids, Bool.and_eq_true, decide_eq_true_eq] at hrep
      obtain ⟨⟨⟨⟨hobj, hpar⟩, hch⟩, hrepk⟩, hrepr⟩ := hrep
      simp only [Forest.nodes, List.nodup_cons, List.nodup_append] at hnd
      obtain ⟨hcnin, hndk, hndr, hdisj⟩ := hnd
      have hcnk : c ∉ kids.nodes := fun h => hcnin (List.mem_append_left _ h)
      have hcnr : c ∉ rest.nodes := fun h => hcnin (List.mem_append_right _ h)
      have hpo' : ∀ p', po = some p' →
          p' ≠ c ∧ p' ∉ kids.nodes ∧ p' ∉ rest.nodes := by
        intro p' hp'
        have hz := hpo p' hp'
        simp only [Forest.nodes, List.mem_cons, List.mem_append] at hz
        push_neg at hz
        exact ⟨hz.1, hz.2.1, hz.2.2⟩
      simp only [Forest.size] at hfuel
      cases fuel with
      | zero => omega
      | succ m =>
      -- the disposal of the head tree rooted at c
      have hobj2 : ∀ x, alookup (removeObj c (parentStep c s)).objects x
          = if x = c then none else alookup s.objects x := by
        intro x
        rw [alookup_objects_removeObj, objects_parentStep]
      have hchA : ∀ x, (∀ p', po = some p' → x ≠ p') →
          childrenOf (removeObj c (parentStep c s)) x = childrenOf s x := by
        intro x hx
        rw [childrenOf_removeObj]
        exact childrenOf_parentStep c s x
          (fun p' hp' => hx p' (by rw [← hpar]; exact hp'))
      have hchC : childrenOf (removeObj c (parentStep c s)) c = kids.roots := by
        rw [hchA c (fun p' hp' => Ne.symm (hpo' p' hp').1), hch]
      have hchP : ∀ p', po = some p' →
          childrenOf (removeObj c (parentStep c s)) p'
            = (childrenOf s p').filter (· ≠ c) := by
        intro p' hp'
        rw [childrenOf_removeObj]
        exact childrenOf_parentStep_parent c s p' (hpar.trans hp')
      have hds : dispose (m + 1) c s
          = clearChildren c (kids.roots.foldl (fun a y => dispose m y a)
              (removeObj c (parentStep c s))) := by
        simp only [dispose]
        rw [hchC]
      have hrepk2 : repKids (removeObj c (parentStep c s)) (some c) kids = true := by
        have hagree : ∀ x, x ∈ kids.nodes →
            alookup (removeObj c (parentStep c s)).objects x = alookup s.objects x ∧
            childrenOf (removeObj c (parentStep c s)) x = childrenOf s x := by
          intro x hx
          constructor
          · rw [hobj2 x, if_neg (fun (hxc : x = c) => hcnk (hxc ▸ hx))]
          · exact hchA x (fun p' hp' hxp => (hpo' p' hp').2.1 (hxp ▸ hx))
        rw [repKids_ext kids (some c) s _ hagree]
        exact hrepk
      have hkids := ihk (some c) m (removeObj c (parentStep c s))
        (kids.roots.foldl (fun a y => dispose m y a) (removeObj c (parentStep c s)))
        hrepk2 hndk
        (fun p' hp' => (Option.some.inj hp') ▸ hcnk)
        (by omega) rfl
      obtain ⟨Ak, Ck, Dk, Ek, Fk⟩ := hkids
      have A1 : ∀ d, d = c ∨ d ∈ kids.nodes →
          alookup (dispose (m + 1) c s).objects d = none := by
        intro d hd
        rw [hds, objects_clearChildren]
        cases hd with
        | inl h =>
            subst h
            rw [Dk d hcnk, hobj2 d, if_pos rfl]
        | inr h => exact Ak d h
      have C1 : ∀ d, d = c ∨ d ∈ kids.nodes →
          childrenOf (dispose (m + 1) c s) d = [] := by
        intro d hd
        rw [hds, childrenOf_clearChildren]
        cases hd with
        | inl h => rw [if_pos h]
        | inr h =>
            rw [if_neg (fun (hdc : d = c) => hcnk (hdc ▸ h))]
            exact Ck d h
      have D1 : ∀ x, x ≠ c → x ∉ kids.nodes →
          alookup (dispose (m + 1) c s).objects x = alookup s.objects x := by
        intro x hx1 hx2
        rw [hds, objects_clearChildren, Dk x hx2, hobj2 x, if_neg hx1]
      have E1 : ∀ x, x ≠ c → x ∉ kids.nodes → (∀ p', po = some p' → x ≠ p') →
          childrenOf (dispose (m + 1) c s) x = childrenOf s x := by
        intro x hx1 hx2 hx3
        rw [hds, childrenOf_clearChildren, if_neg hx1,
          Ek x hx2 (fun p' hp' => (Option.some.inj hp') ▸ hx1),
          hchA x hx3]
      have F1 : ∀ p', po = some p' →
          childrenOf (dispose (m + 1) c s) p'
            = (childrenOf s p').filter (· ≠ c) := by
        intro p' hp'
        obtain ⟨hp1, hp2, hp3⟩ := hpo' p' hp'
        rw [hds, childrenOf_clearChildren, if_neg hp1,
          Ek p' hp2 (fun q hq => (Option.some.inj hq) ▸ hp1),
          hchP p' hp']
      have hrepr1 : repKids (dispose (m + 1) c s) po rest = true := by
        have hagree : ∀ x, x ∈ rest.nodes →
            alookup (dispose (m + 1) c s).objects x = alookup s.objects x ∧
            childrenOf (dispose (m + 1) c s) x = childrenOf s x := by
          intro x hx
          have hx1 : x ≠ c := fun hxc => hcnr (hxc ▸ hx)
          have hx2 : x ∉ kids.nodes := fun hk => hdisj hk hx
          refine ⟨D1 x hx1 hx2, E1 x hx1 hx2 ?_⟩
          intro p' hp' hxp
          exact (hpo' p' hp').2.2 (hxp ▸ hx)
        rw [repKids_ext rest po s _ hagree]
        exact hrepr
      have hrest := ihr po (m + 1) (dispose (m + 1) c s)
        (rest.roots.foldl (fun a y => dispose (m + 1) y a) (dispose (m + 1) c s))
        hrepr1 hndr (fun p' hp' => (hpo' p' hp').2.2) (by omega) rfl
      obtain ⟨Ar, Cr, Dr, Er, Fr⟩ := hrest
      subst hs'
      simp only [Forest.roots, Forest.nodes, List.foldl_cons]
      refine ⟨?_, ?_, ?_, ?_, ?_⟩
      · intro d hd
        simp only [List.mem_cons, List.mem_append] at hd
        rcases hd with hd | hd | hd
        · exact alookup_objects_foldl_dispose (m + 1)
            (alookup_objects_dispose_none (m + 1)) rest.roots _ d (A1 d (Or.inl hd))
        · exact alookup_objects_foldl_dispose (m + 1)
            (alookup_objects_dispose_none (m + 1)) rest.roots _ d (A1 d (Or.inr hd))
        · exact Ar d hd
      · intro d hd
        simp only [List.mem_cons, List.mem_append] at hd
        rcases hd with hd | hd | hd
        · refine List.eq_nil_iff_forall_not_mem.mpr ?_
          intro y hy
          have hm := mem_childrenOf_foldl_dispose (m + 1)
            (mem_childrenOf_dispose (m + 1)) rest.roots _ d y hy
          rw [C1 d (Or.inl hd)] at hm
          cases hm
        · refine List.eq_nil_iff_forall_not_mem.mpr ?_
          intro y hy
          have hm := mem_childrenOf_foldl_dispose (m + 1)
            (mem_childrenOf_dispose (m + 1)) rest.roots _ d y hy
          rw [C1 d (Or.inr hd)] at hm
          cases hm
        · exact Cr d hd
      · intro x hx
        simp only [List.mem_cons, List.mem_append] at hx
        push_neg at hx
        obtain ⟨hx1, hx2, hx3⟩ := hx
        rw [Dr x hx3, D1 x hx1 hx2]
      · intro x hx hxpo
        simp only [List.mem_cons, List.mem_append] at hx
        push_neg at hx
        obtain ⟨hx1, hx2, hx3⟩ := hx
        rw [Er x hx3 hxpo, E1 x hx1 hx2 hxpo]
      · intro p' hp'
        rw [Fr p' hp', F1 p' hp', filter_ne_filter_not_mem]

/-- A successful lookup names an entry of the list. -/
theorem alookup_mem {α : Type} {l : List (String × α)} {k : String} {v : α}
    (h : alookup l k = some v) : (k, v) ∈ l := by
  induction l with
  | nil => cases h
  | cons e rest ih =>
      obtain ⟨k', v'⟩ := e
      rw [alookup_cons] at h
      by_cases hk : k' = k
      · rw [if_pos hk] at h
        subst hk
        injection h with hv
        subst hv
        exact List.mem_cons_self _ _
      · rw [if_neg hk] at h
        exact List.mem_cons_of_mem _ (ih h)

/-- In a represented forest, every node's parent pointer is either the
forest's parent (and the node a root) or some node of the forest. -/
theorem repKids_parent : ∀ (f : Forest) (po : Option String) (s : Registry),
    repKids s po f = true → ∀ d, d ∈ f.nodes →
    (d ∈ f.roots ∧ parentPtr s d = po) ∨
    (∃ q, q ∈ f.nodes ∧ parentPtr s d = some q) := by
  intro f
  induction f with
  | nil => intro po s _ d hd; cases hd
  | cons c kids rest ihk ihr =>
      intro po s hrep d hd
      simp only [repKids, Bool.and_eq_true, decide_eq_true_eq] at hrep
      obtain ⟨⟨⟨⟨hobj, hpar⟩, hch⟩, hrepk⟩, hrepr⟩ := hrep
      simp only [Forest.nodes, List.mem_cons, List.mem_append] at hd
      rcases hd with rfl | hd | hd
      · exact Or.inl ⟨List.mem_cons_self _ _, hpar⟩
      · rcases ihk (some c) s hrepk d hd with ⟨_, hp⟩ | ⟨q, hq, hp⟩
        · exact Or.inr ⟨c, List.mem_cons_self _ _, hp⟩
        · exact Or.inr ⟨q, List.mem_cons_of_mem _ (List.mem_append_left _ hq), hp⟩
      · rcases ihr po s hrepr d hd with ⟨hr, hp⟩ | ⟨q, hq, hp⟩
        · exact Or.inl ⟨List.mem_cons_of_mem _ hr, hp⟩
        · exact Or.inr ⟨q, List.mem_cons_of_mem _ (List.mem_append_right _ hq), hp⟩

/-- From a successful `Option.all` check, the checked property of the
wrapped element. -/
theorem option_all_spec {α : Type} (f : α → Bool) (o : Option α)
    (h : o.all f = true) : ∀ a, o = some a → f a = true := by
  intro a ha
  rw [ha] at h
  exact h

/-- C3.  Disposal cascade: on a registry whose slice below the registered
proxy `g` is the tree described by `kids` (`repKids`), with distinct
guids, child lists consistent with parent pointers, `g`'s own parent
outside its subtree, and enough fuel for the recursion, `_dispose g`
removes `g` and every one of its descendants from the connection-wide
table, leaves no child list (in particular no parent's) containing any of
them, and leaves the disposed proxy's child map empty.  The recursion in
the model folds over the snapshot of the child list taken before the
recursion begins, exactly as `list(self._objects.values())` does. -/
theorem C3_dispose_cascade (st : Registry) (g : String) (kids : Forest) (fuel : Nat)
    (hrep : repKids st (parentPtr st g) (Forest.cons g kids Forest.nil) = true)
    (hnd : (Forest.cons g kids Forest.nil).nodes.Nodup)
    (hglob : ∀ e ∈ st.children, ∀ d ∈ e.2, parentPtr st d = some e.1)
    (hpar : (parentPtr st g).all
      (fun p' => !((Forest.cons g kids Forest.nil).nodes.contains p')) = true)
    (hfuel : (Forest.cons g kids Forest.nil).size ≤ fuel) :
    (∀ d ∈ (Forest.cons g kids Forest.nil).nodes,
      alookup (dispose fuel g st).objects d = none ∧
      ∀ q, d ∉ childrenOf (dispose fuel g st) q) ∧
    childrenOf (dispose fuel g st) g = [] := by
  have hpar' : ∀ p', parentPtr st g = some p' →
      p' ∉ (Forest.cons g kids Forest.nil).nodes := by
    intro p' hp'
    have := option_all_spec _ _ hpar p' hp'
    simpa using this
  have hdf := dispose_forest (Forest.cons g kids Forest.nil) (parentPtr st g) fuel st
      (dispose fuel g st) hrep hnd hpar' hfuel (by simp [Forest.roots])
  obtain ⟨A, C, D, E, F⟩ := hdf
  refine ⟨?_, C g (List.mem_cons_self _ _)⟩
  intro d hd
  refine ⟨A d hd, ?_⟩
  intro q hq
  have hdq : d ∈ childrenOf st q := mem_childrenOf_dispose fuel g st q d hq
  by_cases hqn : q ∈ (Forest.cons g kids Forest.nil).nodes
  · rw [C q hqn] at hq
    cases hq
  · have hpq : parentPtr st d = some q := by
      have hex : ∃ l, alookup st.children q = some l ∧ d ∈ l := by
        unfold childrenOf at hdq
        cases hl : alookup st.children q with
        | none => rw [hl] at hdq; cases hdq
        | some l =>
            refine ⟨l, rfl, ?_⟩
            rw [hl] at hdq
            exact hdq
      obtain ⟨l, hl, hdl⟩ := hex
      exact hglob (q, l) (alookup_mem hl) d hdl
    rcases repKids_parent _ _ _ hrep d hd with ⟨hroot, hp⟩ | ⟨q', hq', hp⟩
    · -- d is the root g and its parent pointer is q, outside the forest
      have hdg : d = g := by
        simp only [Forest.roots, List.mem_cons] at hroot
        rcases hroot with h | h
        · exact h
        · cases h
      have hpoq : parentPtr st g = some q := by
        rw [← hdg, hpq]
      have := F q hpoq
      rw [this] at hq
      have := List.of_mem_filter hq
      rw [hdg] at this
      simp [Forest.roots] at this
    · rw [hp] at hpq
      injection hpq with hqq
      exact hqn (hqq ▸ hq')

/-- C3 witness: a concrete registry holding a root, a page `"g"`, a child
`"c1"` and a grandchild `"c2"`; disposing `"g"` removes all three from
the object table and from every child list, and empties `"g"`'s child
map. -/
theorem C3_dispose_cascade_witness :
    (∀ d ∈ (Forest.cons "g"
        (Forest.cons "c1" (Forest.cons "c2" Forest.nil Forest.nil) Forest.nil)
        Forest.nil).nodes,
      alookup (dispose 3 "g"
        (Registry.mk
          [("root", Proxy.mk "Root" none), ("g", Proxy.mk "Page" (some "root")),
           ("c1", Proxy.mk "Frame" (some "g")),
           ("c2", Proxy.mk "Request" (some "c1"))]
          [("root", ["g"]), ("g", ["c1"]), ("c1", ["c2"]), ("c2", [])])).objects d
        = none ∧
      ∀ q, d ∉ childrenOf (dispose 3 "g"
        (Registry.mk
          [("root", Proxy.mk "Root" none), ("g", Proxy.mk "Page" (some "root")),
           ("c1", Proxy.mk "Frame" (some "g")),
           ("c2", Proxy.mk "Request" (some "c1"))]
          [("root", ["g"]), ("g", ["c1"]), ("c1", ["c2"]), ("c2", [])])) q) ∧
    childrenOf (dispose 3 "g"
      (Registry.mk
        [("root", Proxy.mk "Root" none), ("g", Proxy.mk "Page" (some "root")),
         ("c1", Proxy.mk "Frame" (some "g")),
         ("c2", Proxy.mk "Request" (some "c1"))]
        [("root", ["g"]), ("g", ["c1"]), ("c1", ["c2"]), ("c2", [])])) "g" = [] :=
  C3_dispose_cascade
    (Registry.mk
      [("root", Proxy.mk "Root" none), ("g", Proxy.mk "Page" (some "root")),
       ("c1", Proxy.mk "Frame" (some "g")),
       ("c2", Proxy.mk "Request" (some "c1"))]
      [("root", ["g"]), ("g", ["c1"]), ("c1", ["c2"]), ("c2", [])])
    "g"
    (Forest.cons "c1" (Forest.cons "c2" Forest.nil Forest.nil) Forest.nil)
    3 (by decide) (by decide) (by decide) (by decide) (by decide)

/-- Python dict assignment `d[k] = v`: replace the value of an existing
key in place, else append the new entry (insertion order). -/
def upsert {α : Type} (k : String) (v : α) : List (String × α) → List (String × α)
  | [] => [(k, v)]
  | (k', v') :: rest => if k' = k then (k, v) :: rest else (k', v') :: upsert k v rest

/-- `self._parent._objects[guid] = self` viewed on the key set of the
parent's child map: add `c` to `p`'s child list unless already present
(assignment to an existing key leaves the key set unchanged). -/
def addChild (p c : String) (cm : List (String × List String)) :
    List (String × List String) :=
  cm.map (fun e => if e.1 = p then (e.1, if e.2.contains c then e.2 else e.2 ++ [c]) else e)

/-- Embedding of the registry effects of `ChannelOwner.__init__` (lines
77-103): the new owner starts with an empty child map (`self._objects =
{}`), is written into the connection-wide table
(`self._connection._objects[guid] = self`), and, when the parent is a
`ChannelOwner` (the root proxy included; `parent = none` embeds a parent
that is the `Connection`), is written into the parent's child map
(`self._parent._objects[guid] = self`).  Both writes are plain Python
dict assignments: an existing key is silently overwritten. -/
def channelOwnerInit (parent : Option String) (typ guid : String)
    (st : Registry) : Registry :=
  let objects' := upsert guid (Proxy.mk typ parent) st.objects
  let children' := upsert guid ([] : List String) st.children
  match parent with
  | some p => Registry.mk objects' (addChild p guid children')
  | none => Registry.mk objects' children'

/-- Lookup after an upsert, pointwise. -/
theorem alookup_upsert {α : Type} (k : String) (v : α)
    (l : List (String × α)) (q : String) :
    alookup (upsert k v l) q = if q = k then some v else alookup l q := by
  induction l with
  | nil =>
      by_cases h : q = k
      · subst h
        simp [upsert, alookup_cons, alookup_nil]
      · have h' : ¬ k = q := fun hh => h hh.symm
        simp [upsert, alookup_cons, alookup_nil, h, h']
  | cons e rest ih =>
      obtain ⟨k', v'⟩ := e
      by_cases h1 : k' = k
      · subst h1
        rw [upsert, if_pos rfl]
        by_cases h2 : q = k'
        · subst h2
          simp [alookup_cons]
        · have h2' : ¬ k' = q := fun hh => h2 hh.symm
          simp [alookup_cons, h2, h2']
      · rw [upsert, if_neg h1]
        by_cases h2 : k' = q
        · subst h2
          simp [alookup_cons, h1]
        · simp [alookup_cons, h2, ih]

/-- C5 (amended).  Registration never fails: constructing a `ChannelOwner`
under `guid` — fresh or already present — completes, and afterwards the
connection-wide table maps `guid` to the new proxy (silently overwriting
any previous entry), every other entry is untouched, and when the parent
is a proxy `p` (distinct from `guid`, with a child map in the state) the
identifier is present in `p`'s child table. -/
theorem C5_register (parent : Option String) (typ guid : String) (st : Registry) :
    alookup (channelOwnerInit parent typ guid st).objects guid
        = some (Proxy.mk typ parent) ∧
    (∀ x, x ≠ guid →
      alookup (channelOwnerInit parent typ guid st).objects x
        = alookup st.objects x) ∧
    (∀ p, parent = some p → p ≠ guid → (alookup st.children p).isSome = true →
      guid ∈ childrenOf (channelOwnerInit parent typ guid st) p) := by
  refine ⟨?_, ?_, ?_⟩
  · cases parent with
    | none => rw [show (channelOwnerInit none typ guid st).objects
          = upsert guid (Proxy.mk typ none) st.objects from rfl,
        alookup_upsert, if_pos rfl]
    | some p => rw [show (channelOwnerInit (some p) typ guid st).objects
          = upsert guid (Proxy.mk typ (some p)) st.objects from rfl,
        alookup_upsert, if_pos rfl]
  · intro x hx
    cases parent with
    | none => rw [show (channelOwnerInit none typ guid st).objects
          = upsert guid (Proxy.mk typ none) st.objects from rfl,
        alookup_upsert, if_neg hx]
    | some p => rw [show (channelOwnerInit (some p) typ guid st).objects
          = upsert guid (Proxy.mk typ (some p)) st.objects from rfl,
        alookup_upsert, if_neg hx]
  · intro p hp hpg hsome
    subst hp
    show guid ∈ (alookup (addChild p guid
      (upsert guid ([] : List String) st.children)) p).getD []
    rw [show addChild p guid (upsert guid ([] : List String) st.children)
        = (upsert guid ([] : List String) st.children).map
            (fun e => if e.1 = p then
              (e.1, (fun l => if l.contains guid then l else l ++ [guid]) e.2)
              else e) from rfl,
      alookup_mapEntry (fun l => if l.contains guid then l else l ++ [guid]) p
        (upsert guid ([] : List String) st.children) p,
      if_pos rfl, alookup_upsert, if_neg hpg]
    cases hl : alookup st.children p with
    | none =>
        rw [hl] at hsome
        cases hsome
    | some l =>
        by_cases hc : l.contains guid
        · have hm : guid ∈ l := by simpa using hc
          simp [hc, hm]
        · have hm : guid ∉ l := by simpa using hc
          simp [hm]

/-- C5 witness: registering a fresh page under the root proxy at a
concrete registry. -/
theorem C5_register_witness :
    alookup (channelOwnerInit (some "root") "Page" "p1"
        (Registry.mk [("root", Proxy.mk "Root" none)] [("root", [])])).objects "p1"
      = some (Proxy.mk "Page" (some "root")) ∧
    (∀ x, x ≠ "p1" →
      alookup (channelOwnerInit (some "root") "Page" "p1"
        (Registry.mk [("root", Proxy.mk "Root" none)] [("root", [])])).objects x
      = alookup (Registry.mk [("root", Proxy.mk "Root" none)]
          [("root", [])]).objects x) ∧
    (∀ p, (some "root" : Option String) = some p → p ≠ "p1" →
      (alookup (Registry.mk [("root", Proxy.mk "Root" none)]
        [("root", [])]).children p).isSome = true →
      "p1" ∈ childrenOf (channelOwnerInit (some "root") "Page" "p1"
        (Registry.mk [("root", Proxy.mk "Root" none)] [("root", [])])) p) :=
  C5_register (some "root") "Page" "p1"
    (Registry.mk [("root", Proxy.mk "Root" none)] [("root", [])])

/-- C5 counterexample: registering under the already-present identifier
`"g"` does not fail — `ChannelOwner.__init__` completes and the
connection-wide table now maps `"g"` to the new proxy, the old entry
silently dropped. -/
theorem C5_claim_counterexample :
    (alookup (Registry.mk
        [("root", Proxy.mk "Root" none), ("g", Proxy.mk "Page" (some "root"))]
        [("root", ["g"]), ("g", [])]).objects "g").isSome = true ∧
    channelOwnerInit (some "root") "Frame" "g"
        (Registry.mk
          [("root", Proxy.mk "Root" none), ("g", Proxy.mk "Page" (some "root"))]
          [("root", ["g"]), ("g", [])])
      = Registry.mk
          [("root", Proxy.mk "Root" none), ("g", Proxy.mk "Frame" (some "root"))]
          [("root", ["g"]), ("g", [])] := by
  exact ⟨rfl, by decide⟩

/-- One captured stack frame (`traceback.FrameSummary`): filename, line
number, function name. -/
structure Frame where
  filename : String
  lineno : Nat
  name : String
deriving DecidableEq

/-- One serialized frame, the `{file, line, function}` mapping built by
`serialize_call_stack`. -/
structure SerFrame where
  file : String
  line : Nat
  function : String
deriving DecidableEq

/-- Containment of one character sequence in another, the meaning of
Python's `in` on strings. -/
def containsSubstring (needle : List Char) : List Char → Bool
  | [] => needle.isEmpty
  | c :: rest => needle.isPrefixOf (c :: rest) || containsSubstring needle rest

/-- `"_generated.py" in frame.filename`: substring test on the filename. -/
def inGeneratedFile (f : Frame) : Bool :=
  containsSubstring "_generated.py".toList f.filename.toList

/-- The loop body of `serialize_call_stack` (lines 310-316): walk the
frames in order, stop at the first frame from generated code, serialize
each retained frame. -/
def buildStack : List Frame → List SerFrame
  | [] => []
  | f :: rest =>
      if inGeneratedFile f then []
      else SerFrame.mk f.filename f.lineno f.name :: buildStack rest

/-- Embedding of `serialize_call_stack` (lines 309-318): build the
truncated serialized list, then `stack.reverse()`. -/
def serialize_call_stack (stack_trace : List Frame) : List SerFrame :=
  (buildStack stack_trace).reverse

/-- The request metadata block: always a `stack`, an `apiName` only when
the caller attached a non-empty one. -/
structure Metadata where
  stack : List SerFrame
  apiName : Option String
deriving DecidableEq

/-- An outbound request message
`dict(id=..., guid=..., method=..., params=..., metadata=...)`. -/
structure WireMsg where
  id : Nat
  guid : String
  method : String
  params : Value
  metadata : Metadata
deriving DecidableEq

/-- The settlement state of a pending call's `asyncio` future. -/
inductive FutState where
  | pending
  | cancelled
  | resolvedOk (result : Option Value)
  | rejected (errBody : Value) (trace : List Frame)
deriving DecidableEq

/-- Embedding of `ProtocolCallback`: the captured stack trace plus the
future's settlement state. -/
structure ProtocolCallback where
  stack_trace : List Frame
  fut : FutState
deriving DecidableEq

/-- The request-side state of one `Connection`: `_last_id`, the object
registry (`_objects` of the connection and of every owner), `_callbacks`,
the keys of `_waiting_for_object`, and the messages handed to
`transport.send` in order. -/
structure Conn where
  lastId : Nat
  reg : Registry
  callbacks : List (Nat × ProtocolCallback)
  waiting : List String
  sent : List WireMsg
deriving DecidableEq

/-- First-match lookup in the correlation table (`self._callbacks[id]`). -/
def alookupN {α : Type} : List (Nat × α) → Nat → Option α
  | [], _ => none
  | (k, v) :: rest, g => if k = g then some v else alookupN rest g

/-- Embedding of `Connection._send_message_to_server` (lines 187-212):
increment `_last_id`, capture the stack trace (a non-empty caller-attached
`__pw_stack_trace__` wins, else the real execution stack), build the
metadata (always `stack`; `apiName` only when a truthy `__pw_api_name__`
is attached), encode `params` outbound, hand the message to the
transport, and file the pending callback under the new id.  Returns the
updated connection and the allocated id. -/
def sendMessageToServer (conn : Conn) (taskStack : Option (List Frame))
    (realStack : List Frame) (apiName : Option String)
    (guid method : String) (params : Value) : Conn × Nat :=
  let id := conn.lastId + 1
  let stackTrace := match taskStack with
    | some s => if s.isEmpty then realStack else s
    | none => realStack
  let metadata := Metadata.mk (serialize_call_stack stackTrace)
    (match apiName with
     | some a => if a = "" then none else some a
     | none => none)
  let message := WireMsg.mk id guid method
    (replaceChannelsWithGuids params "params") metadata
  let callback := ProtocolCallback.mk stackTrace FutState.pending
  (Conn.mk id conn.reg (conn.callbacks ++ [(id, callback)]) conn.waiting
    (conn.sent ++ [message]), id)

/-- Embedding of `Channel.send_no_reply` (lines 71-74): the same
`_send_message_to_server` call with the returned callback discarded. -/
def send_no_reply (conn : Conn) (taskStack : Option (List Frame))
    (realStack : List Frame) (apiName : Option String)
    (guid method : String) (params : Value) : Conn :=
  (sendMessageToServer conn taskStack realStack apiName guid method params).1

/-- The per-call arguments of one `_send_message_to_server` invocation. -/
structure CallArgs where
  taskStack : Option (List Frame)
  realStack : List Frame
  apiName : Option String
  guid : String
  method : String
  params : Value

/-- A sequence of sends on one connection, returning the allocated ids in
call order. -/
def sendSeq : List CallArgs → Conn → List Nat × Conn
  | [], conn => ([], conn)
  | a :: rest, conn =>
      let r := sendMessageToServer conn a.taskStack a.realStack a.apiName
        a.guid a.method a.params
      let rr := sendSeq rest r.1
      (r.2 :: rr.1, rr.2)

/-- The ids of a send sequence are consecutive starting right after the
current `_last_id`, and `_last_id` advances by the number of calls. -/
theorem sendSeq_ids : ∀ (calls : List CallArgs) (conn : Conn),
    (sendSeq calls conn).1 = List.range' (conn.lastId + 1) calls.length ∧
    (sendSeq calls conn).2.lastId = conn.lastId + calls.length := by
  intro calls
  induction calls with
  | nil => intro conn; exact ⟨rfl, rfl⟩
  | cons a rest ih =>
      intro conn
      have hr := ih (sendMessageToServer conn a.taskStack a.realStack a.apiName
        a.guid a.method a.params).1
      constructor
      · show (sendMessageToServer conn a.taskStack a.realStack a.apiName
            a.guid a.method a.params).2 :: (sendSeq rest _).1 = _
        rw [hr.1]
        rw [show (sendMessageToServer conn a.taskStack a.realStack a.apiName
            a.guid a.method a.params).1.lastId = conn.lastId + 1 from rfl]
        rw [show (sendMessageToServer conn a.taskStack a.realStack a.apiName
            a.guid a.method a.params).2 = conn.lastId + 1 from rfl]
        simp only [List.length_cons]
        rw [List.range'_succ]
      · show (sendSeq rest _).2.lastId = _
        rw [hr.2]
        rw [show (sendMessageToServer conn a.taskStack a.realStack a.apiName
            a.guid a.method a.params).1.lastId = conn.lastId + 1 from rfl]
        simp only [List.length_cons]
        omega

/-- Nothing below the start of a `range'` is in it. -/
theorem not_mem_range'_of_lt : ∀ (n s m : Nat), m < s → m ∉ List.range' s n := by
  intro n
  induction n with
  | zero =>
      intro s m _ h
      cases h
  | succ n ih =>
      intro s m hm h
      rw [List.range'_succ] at h
      rcases List.mem_cons.mp h with rfl | h2
      · omega
      · exact ih (s + 1) m (by omega) h2

/-- `range'` has no duplicates. -/
theorem range'_nodup : ∀ (n s : Nat), (List.range' s n).Nodup := by
  intro n
  induction n with
  | zero => intro s; simp
  | succ n ih =>
      intro s
      rw [List.range'_succ]
      exact List.nodup_cons.mpr
        ⟨not_mem_range'_of_lt n (s + 1) s (by omega), ih (s + 1)⟩

/-- `range'` is strictly increasing link by link. -/
theorem range'_chain_lt : ∀ (n s : Nat), List.Chain' (· < ·) (List.range' s n) := by
  intro n
  induction n with
  | zero => intro s; simp
  | succ n ih =>
      intro s
      rw [List.range'_succ]
      cases n with
      | zero => simp
      | succ m =>
          rw [List.range'_succ, List.chain'_cons]
          refine ⟨by omega, ?_⟩
          rw [← List.range'_succ]
          exact ih (s + 1)

/-- C4.  Monotonic request ids: starting from a fresh connection
(`_last_id = 0`), any sequence of `_send_message_to_server` calls — the
shared path of `Channel.send`, `send_return_as_dict` and the
fire-and-forget `send_no_reply` — allocates exactly the ids 1, 2, ...,
N in call order: the list of allocated ids is `range' 1 N`, strictly
increasing, without reuse, and the first call receives id 1. -/
theorem C4_monotonic_ids (calls : List CallArgs) (conn : Conn)
    (hinit : conn.lastId = 0) :
    (sendSeq calls conn).1 = List.range' 1 calls.length ∧
    List.Chain' (· < ·) (sendSeq calls conn).1 ∧
    (sendSeq calls conn).1.Nodup ∧
    (∀ a rest, calls = a :: rest → (sendSeq calls conn).1.head? = some 1) := by
  have h := sendSeq_ids calls conn
  rw [hinit] at h
  refine ⟨h.1, ?_, ?_, ?_⟩
  · rw [h.1]
    exact range'_chain_lt _ _
  · rw [h.1]
    exact range'_nodup _ _
  · intro a rest hc
    subst hc
    rw [h.1, List.length_cons, List.range'_succ]
    rfl

/-- C4 witness: two concrete sends on a fresh connection receive ids 1
and 2. -/
theorem C4_monotonic_ids_witness :
    (sendSeq [CallArgs.mk none [] none "g" "m" Value.null,
              CallArgs.mk none [] none "g" "m2" Value.null]
      (Conn.mk 0 (Registry.mk [] []) [] [] [])).1
      = List.range' 1 [CallArgs.mk none [] none "g" "m" Value.null,
              CallArgs.mk none [] none "g" "m2" Value.null].length ∧
    List.Chain' (· < ·) (sendSeq [CallArgs.mk none [] none "g" "m" Value.null,
              CallArgs.mk none [] none "g" "m2" Value.null]
      (Conn.mk 0 (Registry.mk [] []) [] [] [])).1 ∧
    (sendSeq [CallArgs.mk none [] none "g" "m" Value.null,
              CallArgs.mk none [] none "g" "m2" Value.null]
      (Conn.mk 0 (Registry.mk [] []) [] [] [])).1.Nodup ∧
    (∀ a rest, [CallArgs.mk none [] none "g" "m" Value.null,
              CallArgs.mk none [] none "g" "m2" Value.null] = a :: rest →
      (sendSeq [CallArgs.mk none [] none "g" "m" Value.null,
              CallArgs.mk none [] none "g" "m2" Value.null]
        (Conn.mk 0 (Registry.mk [] []) [] [] [])).1.head? = some 1) :=
  C4_monotonic_ids
    [CallArgs.mk none [] none "g" "m" Value.null,
     CallArgs.mk none [] none "g" "m2" Value.null]
    (Conn.mk 0 (Registry.mk [] []) [] [] []) rfl

/-- The stack loop stops at the first generated-code frame: everything
from that frame on is dropped. -/
theorem buildStack_stops (pre rest : List Frame) (bad : Frame)
    (hpre : ∀ f ∈ pre, inGeneratedFile f = false)
    (hbad : inGeneratedFile bad = true) :
    buildStack (pre ++ bad :: rest)
      = pre.map (fun f => SerFrame.mk f.filename f.lineno f.name) := by
  induction pre with
  | nil => simp [buildStack, hbad]
  | cons f fs ih =>
      have hf := hpre f (List.mem_cons_self _ _)
      simp [buildStack, hf, ih (fun x hx => hpre x (List.mem_cons_of_mem _ hx))]

/-- Without a generated-code frame, every frame is serialized. -/
theorem buildStack_all (frames : List Frame)
    (h : ∀ f ∈ frames, inGeneratedFile f = false) :
    buildStack frames
      = frames.map (fun f => SerFrame.mk f.filename f.lineno f.name) := by
  induction frames with
  | nil => rfl
  | cons f fs ih =>
      have hf := h f (List.mem_cons_self _ _)
      simp [buildStack, hf, ih (fun x hx => h x (List.mem_cons_of_mem _ hx))]

/-- C7.  Call-stack metadata: `serialize_call_stack` truncates the
captured frames at the first frame whose filename lies in generated code
(dropping that frame and everything after it), serializes each retained
frame as a `{file, line, function}` mapping, and reverses the result into
outermost-first order; and the request built by
`_send_message_to_server` carries exactly
`serialize_call_stack(callback.stack_trace)` in its metadata. -/
theorem C7_call_stack_metadata (pre rest frames : List Frame) (bad : Frame)
    (conn : Conn) (taskStack : Option (List Frame)) (realStack : List Frame)
    (apiName : Option String) (guid method : String) (params : Value)
    (hpre : ∀ f ∈ pre, inGeneratedFile f = false)
    (hbad : inGeneratedFile bad = true)
    (hall : ∀ f ∈ frames, inGeneratedFile f = false) :
    serialize_call_stack (pre ++ bad :: rest)
      = (pre.map (fun f => SerFrame.mk f.filename f.lineno f.name)).reverse ∧
    serialize_call_stack frames
      = (frames.map (fun f => SerFrame.mk f.filename f.lineno f.name)).reverse ∧
    (sendMessageToServer conn taskStack realStack apiName guid method params).1.sent
      = conn.sent ++ [WireMsg.mk (conn.lastId + 1) guid method
          (replaceChannelsWithGuids params "params")
          (Metadata.mk
            (serialize_call_stack (match taskStack with
              | some s => if s.isEmpty then realStack else s
              | none => realStack))
            (match apiName with
              | some a => if a = "" then none else some a
              | none => none))] := by
  refine ⟨?_, ?_, rfl⟩
  · unfold serialize_call_stack
    rw [buildStack_stops pre rest bad hpre hbad]
  · unfold serialize_call_stack
    rw [buildStack_all frames hall]

/-- C7 witness: a concrete stack with one applicative frame, one
generated frame and one frame below it; and a concrete all-applicative
stack. -/
theorem C7_call_stack_metadata_witness :
    serialize_call_stack ([Frame.mk "app.py" 10 "main"]
        ++ Frame.mk "playwright/_generated.py" 5 "call" :: [Frame.mk "y.py" 1 "f"])
      = ([Frame.mk "app.py" 10 "main"].map
          (fun f => SerFrame.mk f.filename f.lineno f.name)).reverse ∧
    serialize_call_stack [Frame.mk "a.py" 3 "g"]
      = ([Frame.mk "a.py" 3 "g"].map
          (fun f => SerFrame.mk f.filename f.lineno f.name)).reverse ∧
    (sendMessageToServer (Conn.mk 0 (Registry.mk [] []) [] [] [])
        (some [Frame.mk "app.py" 10 "main"]) [] (some "page.goto") "g" "goto"
        Value.null).1.sent
      = (Conn.mk 0 (Registry.mk [] []) [] [] []).sent
        ++ [WireMsg.mk ((Conn.mk 0 (Registry.mk [] []) [] [] []).lastId + 1)
            "g" "goto" (replaceChannelsWithGuids Value.null "params")
            (Metadata.mk
              (serialize_call_stack (match (some [Frame.mk "app.py" 10 "main"] :
                  Option (List Frame)) with
                | some s => if s.isEmpty then [] else s
                | none => []))
              (match (some "page.goto" : Option String) with
                | some a => if a = "" then none else some a
                | none => none))] :=
  C7_call_stack_metadata [Frame.mk "app.py" 10 "main"] [Frame.mk "y.py" 1 "f"]
    [Frame.mk "a.py" 3 "g"] (Frame.mk "playwright/_generated.py" 5 "call")
    (Conn.mk 0 (Registry.mk [] []) [] [] [])
    (some [Frame.mk "app.py" 10 "main"]) [] (some "page.goto") "g" "goto"
    Value.null (by decide) (by decide) (by decide)

/-- Python truthiness of an embedded value (`if not result:`,
`if error:`): `None`, `False`, `0`, `""`, `[]` and `{}` are falsy,
everything else — `Path` and `Channel` objects included — is truthy. -/
def Value.truthy : Value → Bool
  | .null => false
  | .bool b => b
  | .int n => n != 0
  | .str s => s != ""
  | .path _ => true
  | .channel _ => true
  | .list .nil => false
  | .list _ => true
  | .dict .nil => false
  | .dict _ => true

/-- Subscript access `payload[key]` read as an option: the entry of a
mapping, nothing otherwise (a miss raises `KeyError`/`TypeError` in the
source, surfaced as `Route.raised` at the use sites). -/
def dictGetV : Value → String → Option Value
  | .dict xs, k => xs.get k
  | _, _ => none

/-- Python's `l[-n:]`: the last `n` elements. -/
def lastN {α : Type} (n : Nat) (l : List α) : List α :=
  l.drop (l.length - n)

/-- A parsed inbound message (`ParsedMessagePayload`): each field is
`none` when absent from the payload. -/
structure Msg where
  id : Option Nat
  error : Option Value
  result : Option Value
  guid : Option String
  method : Option String
  params : Option Value
deriving DecidableEq

/-- What one `_dispatch` invocation did: settled, dropped or raised on a
response; created or disposed an object; fanned an event out (recording a
caught-and-logged listener failure); or raised a `KeyError`-like error
before acting (`raised`). -/
inductive Route where
  | respRejected (id : Nat) (errBody : Value) (trace : List Frame)
  | respFulfilled (id : Nat) (result : Option Value)
  | respDropped (id : Nat)
  | created (parentGuid typ newGuid : String) (initializer : Value) (notified : Bool)
  | disposed (guid : String)
  | eventOk (guid : String) (method : Option String) (params : Value)
  | eventFailed (guid : String) (method : Option String) (params : Value)
      (logged : String)
  | raised
deriving DecidableEq

/-- The routes that treat the message as a server notification (object
lifecycle or domain event) rather than as a response. -/
def Route.isNotification : Route → Bool
  | .created _ _ _ _ _ => true
  | .disposed _ => true
  | .eventOk _ _ _ => true
  | .eventFailed _ _ _ _ => true
  | _ => false

/-- Sequential listener fan-out: run each registered listener on the
decoded params until one raises; the `String` of the error is the
formatted exception trace. -/
def runListeners : List (Value → Except String Unit) → Value → Except String Unit
  | [], _ => Except.ok ()
  | h :: rest, v =>
      match h v with
      | Except.error e => Except.error e
      | Except.ok _ => runListeners rest v

/-- The server-notification half of `Connection._dispatch` (lines
232-257), reached when the `id` field is absent or falsy: read
`msg["guid"]` and `msg["params"]` (raising when absent), then branch on
the method: `__create__` decodes the initializer inbound and registers a
new proxy under the addressed parent (the external `_object_factory`
constructs it; its registry effect is `ChannelOwner.__init__`), popping
and invoking any `_waiting_for_object` continuation; `__dispose__`
disposes the addressed proxy; any other method decodes `params` inbound
and fans out to the listeners of the addressed object's channel, catching
and logging a listener failure (`print("Error dispatching the event",
...)`).
Model notes: the protocol guarantees string `type`/`guid` fields in a
`__create__`, so non-string values are folded into `raised`; `fuel`
bounds the disposal recursion and `lst` is the listener table (guid and
method name to handlers). -/
def notifDispatch (lst : String → String → List (Value → Except String Unit))
    (fuel : Nat) (msg : Msg) (st : Conn) : Conn × Route :=
  match msg.guid with
  | none => (st, Route.raised)
  | some guid =>
      match msg.params with
      | none => (st, Route.raised)
      | some params =>
          if msg.method = some "__create__" then
            match alookup st.reg.objects guid with
            | none => (st, Route.raised)
            | some _ =>
                match dictGetV params "type", dictGetV params "guid",
                      dictGetV params "initializer" with
                | some (Value.str typ), some (Value.str newGuid), some ini =>
                    (Conn.mk st.lastId
                      (channelOwnerInit (some guid) typ newGuid st.reg)
                      st.callbacks
                      (st.waiting.filter (fun w => w ≠ newGuid)) st.sent,
                     Route.created guid typ newGuid
                       (replaceGuidsWithChannels st.reg.objKeys ini)
                       (st.waiting.contains newGuid))
                | _, _, _ => (st, Route.raised)
          else if msg.method = some "__dispose__" then
            match alookup st.reg.objects guid with
            | none => (st, Route.raised)
            | some _ =>
                (Conn.mk st.lastId (dispose fuel guid st.reg) st.callbacks
                  st.waiting st.sent, Route.disposed guid)
          else
            match alookup st.reg.objects guid with
            | none => (st, Route.raised)
            | some _ =>
                match runListeners
                    (match msg.method with
                     | some m => lst guid m
                     | none => [])
                    (replaceGuidsWithChannels st.reg.objKeys params) with
                | Except.ok _ =>
                    (st, Route.eventOk guid msg.method
                      (replaceGuidsWithChannels st.reg.objKeys params))
                | Except.error e =>
                    (st, Route.eventFailed guid msg.method
                      (replaceGuidsWithChannels st.reg.objKeys params)
                      ("Error dispatching the event " ++ e))

/-- Embedding of `Connection._dispatch` (lines 214-257).  The response
path is taken when `msg.get("id")` is truthy (`if id:`): the pending
callback is popped (`self._callbacks.pop(id)`, raising when absent); a
cancelled future drops the message silently; otherwise a truthy `error`
payload rejects the future with the parsed error body (`parse_error` is
an external collaborator; the model keeps the `error["error"]` payload)
carrying the last ten captured frames, and anything else fulfils it with
the inbound-decoded `result`.  A settled future would make
`set_result`/`set_exception` raise `InvalidStateError`, folded into
`raised`.  Non-truthy ids fall through to the notification half. -/
def dispatch (lst : String → String → List (Value → Except String Unit))
    (fuel : Nat) (msg : Msg) (st : Conn) : Conn × Route :=
  match msg.id with
  | some id0 =>
      if id0 ≠ 0 then
        match alookupN st.callbacks id0 with
        | none => (st, Route.raised)
        | some cb =>
            let st1 := Conn.mk st.lastId st.reg
              (st.callbacks.filter (fun e => e.1 ≠ id0)) st.waiting st.sent
            match cb.fut with
            | FutState.cancelled => (st1, Route.respDropped id0)
            | FutState.pending =>
                match msg.error with
                | some e =>
                    if e.truthy then
                      match dictGetV e "error" with
                      | some body =>
                          (st1, Route.respRejected id0 body (lastN 10 cb.stack_trace))
                      | none => (st1, Route.raised)
                    else
                      (st1, Route.respFulfilled id0
                        (msg.result.map (replaceGuidsWithChannels st.reg.objKeys)))
                | none =>
                    (st1, Route.respFulfilled id0
                      (msg.result.map (replaceGuidsWithChannels st.reg.objKeys)))
            | _ => (st1, Route.raised)
      else notifDispatch lst fuel msg st
  | none => notifDispatch lst fuel msg st

/-- C6.  Cancelled-call late response: a response whose id maps to a
pending call whose future was already cancelled is popped from the
correlation table and then discarded silently — the state changes in no
other way, the future is neither fulfilled nor rejected, and nothing is
raised or logged. -/
theorem C6_cancelled_response_dropped
    (lst : String → String → List (Value → Except String Unit))
    (fuel : Nat) (msg : Msg) (st : Conn) (id0 : Nat) (cb : ProtocolCallback)
    (hid : msg.id = some id0) (hnz : id0 ≠ 0)
    (hcb : alookupN st.callbacks id0 = some cb)
    (hcan : cb.fut = FutState.cancelled) :
    dispatch lst fuel msg st
      = (Conn.mk st.lastId st.reg (st.callbacks.filter (fun e => e.1 ≠ id0))
          st.waiting st.sent, Route.respDropped id0) := by
  simp only [dispatch, hid]
  rw [if_pos hnz]
  simp only [hcb, hcan]

/-- C6 witness: a concrete connection holding one cancelled pending call
under id 7; a response for id 7 pops it and is dropped. -/
theorem C6_cancelled_response_dropped_witness :
    dispatch (fun _ _ => []) 1
      (Msg.mk (some 7) none (some Value.null) none none none)
      (Conn.mk 7 (Registry.mk [] [])
        [(7, ProtocolCallback.mk [] FutState.cancelled)] [] [])
      = (Conn.mk 7 (Registry.mk [] [])
          ([(7, ProtocolCallback.mk [] FutState.cancelled)].filter
            (fun e => e.1 ≠ 7)) [] [],
         Route.respDropped 7) :=
  C6_cancelled_response_dropped (fun _ _ => []) 1
    (Msg.mk (some 7) none (some Value.null) none none none)
    (Conn.mk 7 (Registry.mk [] [])
      [(7, ProtocolCallback.mk [] FutState.cancelled)] [] [])
    7 (ProtocolCallback.mk [] FutState.cancelled)
    rfl (by decide) rfl rfl

/-- C9 counterexample: a message in which the `id` field is present but
`0` is not routed as a response — `if id:` tests truthiness, not
presence, so the message falls through to the notification half and is
dispatched as a domain event. -/
theorem C9_claim_counterexample :
    (Msg.mk (some 0) none none (some "g") (some "close") (some Value.null)).id
      = some 0 ∧
    dispatch (fun _ _ => []) 1
      (Msg.mk (some 0) none none (some "g") (some "close") (some Value.null))
      (Conn.mk 0 (Registry.mk [("g", Proxy.mk "Page" none)] [("g", [])]) [] [] [])
      = (Conn.mk 0 (Registry.mk [("g", Proxy.mk "Page" none)] [("g", [])]) [] [] [],
         Route.eventOk "g" (some "close") Value.null) ∧
    Route.isNotification (Route.eventOk "g" (some "close") Value.null) = true := by
  refine ⟨rfl, ?_, rfl⟩
  decide

/-- C9 (amended).  Response classification: an inbound message whose `id`
field is present and truthy (non-zero) is routed as a response: the
matching pending call is popped from the correlation table, the registry
and the pending-creation map are untouched, and the message is never
treated as a lifecycle notification or domain event.  A cancelled future
drops the message; a pending future is rejected with the parsed error
body (and trailing ten captured frames) when a truthy `error` payload is
carried, and otherwise fulfilled with the inbound-decoded `result`. -/
theorem C9_response_routing
    (lst : String → String → List (Value → Except String Unit))
    (fuel : Nat) (msg : Msg) (st : Conn) (id0 : Nat) (cb : ProtocolCallback)
    (hid : msg.id = some id0) (hnz : id0 ≠ 0)
    (hcb : alookupN st.callbacks id0 = some cb) :
    (dispatch lst fuel msg st).1.callbacks
        = st.callbacks.filter (fun e => e.1 ≠ id0) ∧
    (dispatch lst fuel msg st).1.reg = st.reg ∧
    (dispatch lst fuel msg st).1.waiting = st.waiting ∧
    Route.isNotification (dispatch lst fuel msg st).2 = false ∧
    (cb.fut = FutState.cancelled →
      (dispatch lst fuel msg st).2 = Route.respDropped id0) ∧
    (cb.fut = FutState.pending →
      (∀ e body, msg.error = some e → e.truthy = true →
        dictGetV e "error" = some body →
        (dispatch lst fuel msg st).2
          = Route.respRejected id0 body (lastN 10 cb.stack_trace)) ∧
      (msg.error = none →
        (dispatch lst fuel msg st).2
          = Route.respFulfilled id0
              (msg.result.map (replaceGuidsWithChannels st.reg.objKeys))) ∧
      (∀ e, msg.error = some e → e.truthy = false →
        (dispatch lst fuel msg st).2
          = Route.respFulfilled id0
              (msg.result.map (replaceGuidsWithChannels st.reg.objKeys)))) := by
  simp only [dispatch, hid]
  rw [if_pos hnz]
  simp only [hcb]
  cases hfut : cb.fut with
  | cancelled =>
      refine ⟨rfl, rfl, rfl, rfl, fun _ => rfl, ?_⟩
      intro hpend
      cases hpend
  | pending =>
      cases herr : msg.error with
      | none =>
          refine ⟨rfl, rfl, rfl, rfl, ?_, ?_⟩
          · intro hc
            cases hc
          · intro _
            refine ⟨?_, fun _ => rfl, ?_⟩
            · intro e body he
              cases he
            · intro e he
              cases he
      | some e =>
          simp only []
          by_cases htr : e.truthy = true
          · rw [if_pos htr]
            cases hbody : dictGetV e "error" with
            | none =>
                refine ⟨rfl, rfl, rfl, rfl, ?_, ?_⟩
                · intro hc
                  cases hc
                · intro _
                  refine ⟨?_, ?_, ?_⟩
                  · intro e' body he' htr' hb'
                    injection he' with hee
                    subst hee
                    rw [hbody] at hb'
                    cases hb'
                  · intro hn
                    cases hn
                  · intro e' he' htr'
                    injection he' with hee
                    subst hee
                    cases htr'.symm.trans htr
            | some body =>
                refine ⟨rfl, rfl, rfl, rfl, ?_, ?_⟩
                · intro hc
                  cases hc
                · intro _
                  refine ⟨?_, ?_, ?_⟩
                  · intro e' body' he' htr' hb'
                    injection he' with hee
                    subst hee
                    rw [hbody] at hb'
                    injection hb' with hbb
                    subst hbb
                    rfl
                  · intro hn
                    cases hn
                  · intro e' he' htr'
                    injection he' with hee
                    subst hee
                    cases htr'.symm.trans htr
          · rw [if_neg htr]
            refine ⟨rfl, rfl, rfl, rfl, ?_, ?_⟩
            · intro hc
              cases hc
            · intro _
              refine ⟨?_, ?_, ?_⟩
              · intro e' body he' htr' hb'
                injection he' with hee
                subst hee
                exact absurd htr' htr
              · intro hn
                cases hn
              · intro e' he' htr'
                rfl
  | resolvedOk r =>
      refine ⟨rfl, rfl, rfl, rfl, ?_, ?_⟩
      · intro hc
        cases hc
      · intro hpend
        cases hpend
  | rejected b t =>
      refine ⟨rfl, rfl, rfl, rfl, ?_, ?_⟩
      · intro hc
        cases hc
      · intro hpend
        cases hpend

/-- C9 witness: a concrete response for pending id 3 pops the callback
and is not treated as a notification; it is fulfilled with the decoded
result. -/
theorem C9_response_routing_witness :
    (dispatch (fun _ _ => []) 1
      (Msg.mk (some 3) none
        (some (Value.dict (ValueDict.cons "value" (Value.int 42) ValueDict.nil)))
        none none none)
      (Conn.mk 0 (Registry.mk [] [])
        [(3, ProtocolCallback.mk [] FutState.pending)] [] [])).1.callbacks
      = [(3, ProtocolCallback.mk [] FutState.pending)].filter (fun e => e.1 ≠ 3) ∧
    Route.isNotification (dispatch (fun _ _ => []) 1
      (Msg.mk (some 3) none
        (some (Value.dict (ValueDict.cons "value" (Value.int 42) ValueDict.nil)))
        none none none)
      (Conn.mk 0 (Registry.mk [] [])
        [(3, ProtocolCallback.mk [] FutState.pending)] [] [])).2 = false ∧
    (dispatch (fun _ _ => []) 1
      (Msg.mk (some 3) none
        (some (Value.dict (ValueDict.cons "value" (Value.int 42) ValueDict.nil)))
        none none none)
      (Conn.mk 0 (Registry.mk [] [])
        [(3, ProtocolCallback.mk [] FutState.pending)] [] [])).2
      = Route.respFulfilled 3
          ((some (Value.dict (ValueDict.cons "value" (Value.int 42) ValueDict.nil))).map
            (replaceGuidsWithChannels (Registry.mk
              ([] : List (String × Proxy)) []).objKeys)) := by
  have h := C9_response_routing (fun _ _ => []) 1
    (Msg.mk (some 3) none
      (some (Value.dict (ValueDict.cons "value" (Value.int 42) ValueDict.nil)))
      none none none)
    (Conn.mk 0 (Registry.mk [] [])
      [(3, ProtocolCallback.mk [] FutState.pending)] [] [])
    3 (ProtocolCallback.mk [] FutState.pending) rfl (by decide) rfl
  exact ⟨h.1, h.2.2.2.1, (h.2.2.2.2.2 rfl).2.1 rfl⟩

/-- C8.  Listener fault isolation: for a domain-event message addressed
to a registered object, `_dispatch` returns normally with the connection
state — registry, correlation table, everything — unchanged; when every
listener succeeds the event is fanned out, and when a listener raises,
the exception is caught and recorded in the log line
`"Error dispatching the event" + trace` instead of propagating. -/
theorem C8_listener_fault_isolation
    (lst : String → String → List (Value → Except String Unit))
    (fuel : Nat) (msg : Msg) (st : Conn) (g m : String) (p : Value)
    (hid : msg.id = none)
    (hg : msg.guid = some g)
    (hm : msg.method = some m)
    (hmc : m ≠ "__create__") (hmd : m ≠ "__dispose__")
    (hp : msg.params = some p)
    (hreg : (alookup st.reg.objects g).isSome = true) :
    (dispatch lst fuel msg st).1 = st ∧
    (runListeners (lst g m) (replaceGuidsWithChannels st.reg.objKeys p)
        = Except.ok () →
      (dispatch lst fuel msg st).2
        = Route.eventOk g (some m) (replaceGuidsWithChannels st.reg.objKeys p)) ∧
    (∀ e, runListeners (lst g m) (replaceGuidsWithChannels st.reg.objKeys p)
        = Except.error e →
      (dispatch lst fuel msg st).2
        = Route.eventFailed g (some m) (replaceGuidsWithChannels st.reg.objKeys p)
            ("Error dispatching the event " ++ e)) := by
  obtain ⟨pr, hpr⟩ := Option.isSome_iff_exists.mp hreg
  have hmc' : ¬ msg.method = some "__create__" := by
    rw [hm]
    intro hh
    injection hh with hh
    exact hmc hh
  have hmd' : ¬ msg.method = some "__dispose__" := by
    rw [hm]
    intro hh
    injection hh with hh
    exact hmd hh
  simp only [dispatch, notifDispatch, hid, hg, hp, hpr, if_neg hmc', if_neg hmd']
  cases hrun : runListeners (lst g m) (replaceGuidsWithChannels st.reg.objKeys p) with
  | ok u =>
      cases u
      rw [hm]
      simp only [hrun]
      exact ⟨trivial, fun _ => trivial, fun e he => by cases he⟩
  | error e =>
      rw [hm]
      simp only [hrun]
      refine ⟨trivial, ?_, ?_⟩
      · intro hok
        cases hok
      · intro e' he'
        injection he' with hee
        rw [hee]

/-- C8 witness: a concrete event whose sole listener raises; dispatch
leaves the state untouched and logs the failure. -/
theorem C8_listener_fault_isolation_witness :
    (dispatch (fun _ _ => [fun _ => Except.error "boom"]) 1
      (Msg.mk none none none (some "g") (some "close") (some Value.null))
      (Conn.mk 0 (Registry.mk [("g", Proxy.mk "Page" none)] [("g", [])]) [] [] [])).1
      = Conn.mk 0 (Registry.mk [("g", Proxy.mk "Page" none)] [("g", [])]) [] [] [] ∧
    (dispatch (fun _ _ => [fun _ => Except.error "boom"]) 1
      (Msg.mk none none none (some "g") (some "close") (some Value.null))
      (Conn.mk 0 (Registry.mk [("g", Proxy.mk "Page" none)] [("g", [])]) [] [] [])).2
      = Route.eventFailed "g" (some "close")
          (replaceGuidsWithChannels
            (Registry.mk [("g", Proxy.mk "Page" none)] [("g", [])]).objKeys
            Value.null)
          ("Error dispatching the event " ++ "boom") := by
  have h := C8_listener_fault_isolation
    (fun _ _ => [fun _ => Except.error "boom"]) 1
    (Msg.mk none none none (some "g") (some "close") (some Value.null))
    (Conn.mk 0 (Registry.mk [("g", Proxy.mk "Page" none)] [("g", [])]) [] [] [])
    "g" "close" Value.null rfl rfl rfl (by decide) (by decide) rfl rfl
  exact ⟨h.1, h.2.2 "boom" rfl⟩

/-- Python truthiness of the settled result slot (`if not result:` —
`result` is `None` when the response carried no `result` field). -/
def optTruthy : Option Value → Bool
  | none => false
  | some v => v.truthy

/-- The length of an embedded mapping (`len(result)`). -/
def ValueDict.length : ValueDict → Nat
  | .nil => 0
  | .cons _ _ rest => 1 + rest.length

/-- Embedding of the result shaping at the tail of `Channel.inner_send`
(lines 57-69), applied to the settled success value: a falsy result
(`None`, `{}`, or any other falsy value) yields `None`; a truthy
non-mapping trips `assert isinstance(result, dict)`; with
`return_as_dict` the mapping is returned whole; otherwise an empty
mapping yields `None`, a one-key mapping yields its sole value, and a
larger mapping trips `assert len(result) == 1`.  An `AssertionError` is
the `Except.error` outcome. -/
def inner_send_shape (return_as_dict : Bool) (result : Option Value) :
    Except String (Option Value) :=
  if optTruthy result then
    match result with
    | some (Value.dict xs) =>
        if return_as_dict then Except.ok (some (Value.dict xs))
        else
          match xs with
          | ValueDict.nil => Except.ok none
          | ValueDict.cons _ v ValueDict.nil => Except.ok (some v)
          | _ => Except.error "AssertionError"
    | _ => Except.error "AssertionError"
  else Except.ok none

/-- Result shaping of `Channel.send` (plain call,
`return_as_dict = False`). -/
def send_shape (result : Option Value) : Except String (Option Value) :=
  inner_send_shape false result

/-- Result shaping of `Channel.send_return_as_dict`
(`return_as_dict = True`). -/
def send_return_as_dict_shape (result : Option Value) :
    Except String (Option Value) :=
  inner_send_shape true result

/-- C2.  Result shaping of a settled success: on a plain call a one-key
mapping yields its sole value and an empty or absent result yields
`None`; with `return_as_dict` a non-empty mapping is returned unchanged;
a mapping with two or more keys on a plain call trips the key-count
assertion. -/
theorem C2_result_shaping (k : String) (v : Value) (xs ys : ValueDict)
    (hxs : xs ≠ ValueDict.nil) (hys : 2 ≤ ys.length) :
    inner_send_shape false (some (Value.dict (ValueDict.cons k v ValueDict.nil)))
      = Except.ok (some v) ∧
    inner_send_shape false (some (Value.dict ValueDict.nil)) = Except.ok none ∧
    inner_send_shape false none = Except.ok none ∧
    inner_send_shape true (some (Value.dict xs)) = Except.ok (some (Value.dict xs)) ∧
    inner_send_shape false (some (Value.dict ys))
      = Except.error "AssertionError" := by
  refine ⟨rfl, rfl, rfl, ?_, ?_⟩
  · cases xs with
    | nil => exact absurd rfl hxs
    | cons k' v' rest => rfl
  · cases ys with
    | nil => simp [ValueDict.length] at hys
    | cons k1 v1 rest =>
        cases rest with
        | nil => simp [ValueDict.length] at hys
        | cons k2 v2 rest2 => rfl

/-- C2 witness: the shaping at concrete one-key, empty, absent, full and
two-key results. -/
theorem C2_result_shaping_witness :
    inner_send_shape false (some (Value.dict
        (ValueDict.cons "value" (Value.int 42) ValueDict.nil)))
      = Except.ok (some (Value.int 42)) ∧
    inner_send_shape false (some (Value.dict ValueDict.nil)) = Except.ok none ∧
    inner_send_shape false none = Except.ok none ∧
    inner_send_shape true (some (Value.dict
        (ValueDict.cons "value" (Value.int 42) ValueDict.nil)))
      = Except.ok (some (Value.dict
          (ValueDict.cons "value" (Value.int 42) ValueDict.nil))) ∧
    inner_send_shape false (some (Value.dict
        (ValueDict.cons "a" (Value.int 1)
          (ValueDict.cons "b" (Value.int 2) ValueDict.nil))))
      = Except.error "AssertionError" :=
  C2_result_shaping "value" (Value.int 42)
    (ValueDict.cons "value" (Value.int 42) ValueDict.nil)
    (ValueDict.cons "a" (Value.int 1)
      (ValueDict.cons "b" (Value.int 2) ValueDict.nil))
    (by decide) (by decide)

/-- C10.  Empty-mapping result with `return_as_dict`: because the
falsy-result check precedes the `return_as_dict` branch, a call through
`send_return_as_dict` answered with result `{}` — or any falsy result —
yields `None`, not `{}`. -/
theorem C10_empty_result_return_as_dict (r : Option Value)
    (hr : optTruthy r = false) :
    send_return_as_dict_shape (some (Value.dict ValueDict.nil)) = Except.ok none ∧
    send_return_as_dict_shape (some (Value.dict ValueDict.nil))
      ≠ Except.ok (some (Value.dict ValueDict.nil)) ∧
    send_return_as_dict_shape r = Except.ok none := by
  refine ⟨rfl, ?_, ?_⟩
  · intro h
    rw [show send_return_as_dict_shape (some (Value.dict ValueDict.nil))
        = Except.ok none from rfl] at h
    injection h with h2
    cases h2
  · unfold send_return_as_dict_shape inner_send_shape
    rw [hr]
    rfl

/-- C10 witness: the falsy integer `0` through `send_return_as_dict` also
yields `None`. -/
theorem C10_empty_result_return_as_dict_witness :
    send_return_as_dict_shape (some (Value.dict ValueDict.nil)) = Except.ok none ∧
    send_return_as_dict_shape (some (Value.dict ValueDict.nil))
      ≠ Except.ok (some (Value.dict ValueDict.nil)) ∧
    send_return_as_dict_shape (some (Value.int 0)) = Except.ok none :=
  C10_empty_result_return_as_dict (some (Value.int 0)) (by decide)
